import Mathlib

/-!
SFDP parser (`sfdpparser/sfdp-parser.c`): embedding and properties

The decoder reads an SFDP dump into a static array of 32-bit words, fixes the
byte order, prints the header, then walks the parameter directory and hands
every well-placed parameter table to a handler.

Conventions of the embedding

* A `uint32_t`, `uint8_t`, `int`, `unsigned` or `size_t` value is a `Nat`;
  wrap-around is written `% 2 ^ 32` where the C arithmetic can reach it.
* Standard output is the list of the print calls made, in order (`Out`);
  the diagnostics of `warnx`/`errx` are a second list (`Diag`).
* The host is little-endian: byte `k` of the buffer is byte `k % 4` (counted
  from the least significant one) of word `k / 4`.  This is the host for which
  a dump starting with the characters `S F D P` carries the signature
  `0x50444653`.
* The text of a print call is `Out.render`; `p_num_val_text` embeds the layout
  of `p_num_val`.
* Two expressions of the source have no value defined by the C language for
  some inputs and are only printed: `1 << n` with `n ≥ 31` and
  `erase_time_mult[k]` with `k ≥ 4`.  What the machine yields there is a
  parameter of the embedding (`Platform`); the general theorems hold for every
  platform.
* `handlers[i]` with `i ≥ 1` reads a record outside the one-entry table, whose
  fields the code then compares, prints through a pointer and calls.  The C
  language gives the program no behaviour from that read on, and a build may
  stop there, go on, or leave the rest of the loop out.  Such a run has no
  result in the embedding: `main` yields `none`.
-/

namespace Sfdp

/-! ## Output -/

/-- One print call on standard output: `num` is a call of `p_num_val`
(one formatted `name: value (description)` line), `title` the
`printf("\n\nParameter %d (%s)\n", i, name)` of the directory walk. -/
inductive Out where
  | num (val : Nat) (name : String) (description : Option String) (hex : Bool)
  | title (i : Nat) (name : String)
  deriving DecidableEq

/-- One message on the error channel. -/
inductive Diag where
  /-- The `errx(1, "File '%s' is shorter than SFDP header", ...)` message. -/
  | too_short
  /-- The `errx(2, "Invalid signature %#08x, expected %#08x", ...)` message. -/
  | bad_signature (seen : Nat)
  /-- The `warnx("Unaligned offset of parameter %u", id)` message. -/
  | unaligned (id : Nat)
  /-- The `warnx("Parameter %u data are behind the end of the file", id)` message. -/
  | behind (id : Nat)
  deriving DecidableEq

/-- Source `p_num_val(val, name, description, hex)`: prints one line; a `NULL`
description is `none`. -/
def p_num_val (val : Nat) (name : String) (description : Option String) (hex : Bool) : Out :=
  Out.num val name description hex

/-- Source `p_dec_val`: `p_num_val(val, name, description, false)`. -/
def p_dec_val (val : Nat) (name : String) (description : Option String) : Out :=
  p_num_val val name description false

/-- Source `p_hex_val`: `p_num_val(val, name, description, val >= 10)`. -/
def p_hex_val (val : Nat) (name : String) (description : Option String) : Out :=
  p_num_val val name description (decide (val ≥ 10))

/-! ## Words and bit fields -/

/-- The word `w[k]` behind a `uint32_t *`: the list is the memory from the
pointer on; the static buffer is zero-initialised, so a word that was never
loaded reads as 0. -/
def rd (w : List Nat) (k : Nat) : Nat := w.getD k 0 % 2 ^ 32

/-- Source macro `bits(w, high, low)`:
`((w & (0xffFFffFFU >> (31 - high))) >> (low))`. -/
def bits (w high low : Nat) : Nat := (w &&& (0xFFFFFFFF >>> (31 - high))) >>> low

/-- Source macro `parse_bits(w, high, low, name, vals...)`: `arr` is the array
built from the initialiser `vals`, a slot without initialiser being `NULL`
(`none`). -/
def parse_bits (w high low : Nat) (name : String) (arr : List (Option String)) : Out :=
  let b := bits w high low
  match arr.get? b with
  | some (some s) => p_hex_val b name (some s)
  | _ => p_hex_val b name (some "Invalid value")

/-- Source macro `SUPP_OR_NOT`. -/
def SUPP_OR_NOT : List (Option String) := [some "not supported", some "supported"]

/-! ## Platform -/

/-- Source `struct sfdp_param_handler`. -/
structure sfdp_param_handler where
  id : Nat
  name : String
  dumper : List Nat → Nat → List Out × Int

/-- The values the machine yields where the C language defines none. -/
structure Platform where
  /-- The 32-bit result of `1 << n` for a shift count `n ≥ 31`. -/
  shl_undef : Nat → Nat
  /-- The word read by `erase_time_mult[k]` for `k ≥ 4`, behind the table. -/
  erase_time_mult_past : Nat → Nat

/-- The C expression `1 << n` (an `int` shifted by an `unsigned`), converted to
`uint32_t`. -/
def shl1 (P : Platform) (n : Nat) : Nat :=
  if n ≤ 30 then 2 ^ n else P.shl_undef n % 2 ^ 32

/-- The C expression `a - 23` on `unsigned` operands. -/
def usub23 (a : Nat) : Nat := (a + 2 ^ 32 - 23) % 2 ^ 32

/-! ## Parameter handlers -/

/-- Source `sfdp_unknown_parameter`: one hexadecimal line `Word i` for each of
the `len` words. -/
def sfdp_unknown_parameter (w : List Nat) (len : Nat) : List Out × Int :=
  ((List.range len).map (fun i => p_hex_val (rd w i) ("Word " ++ toString i) none), 0)

/-- Source `erase_time_mult[k]` in `sfdp_basic`. -/
def erase_time_mult (P : Platform) (k : Nat) : Nat :=
  match [1, 16, 128, 1000].get? k with
  | some v => v
  | none => P.erase_time_mult_past k % 2 ^ 32

/-- Source `program_page_time_mult[k]`; the index is a one-bit field. -/
def program_page_time_mult (k : Nat) : Nat := [8, 64].getD k 0

/-- Source `program_byte_time_mult[k]`; the index is a one-bit field. -/
def program_byte_time_mult (k : Nat) : Nat := [1, 8].getD k 0

/-- Source `erase_chip_time_mult[k]`; the index is a two-bit field. -/
def erase_chip_time_mult (k : Nat) : Nat := [16, 256, 4000, 64000].getD k 0

/-- Lines of `sfdp_basic` printed from `w[0]` (source lines 109-131). -/
def basic_word0 (w : List Nat) : List Out :=
  [ parse_bits (rd w 0) 1 0 "Erase Size"
      [none, some "4kB supported", none, some "4kB supported"],
    parse_bits (rd w 0) 2 2 "Write Granularity"
      [some "Single byte or less than 64 bytes", some "64 bytes or more"],
    parse_bits (rd w 0) 3 3 "Volatile Status Register Block Protect Bits"
      [some "non-volatile", some "volatile"],
    parse_bits (rd w 0) 4 4
      "Write Enable Instruction for Writing to Volatile Status Register"
      [some "50h", some "06h"],
    p_hex_val (bits (rd w 0) 15 8) "4kB Erase Instruction" none,
    parse_bits (rd w 0) 16 16 "1-1-2 Fast Read" SUPP_OR_NOT,
    parse_bits (rd w 0) 18 17 "Address Bytes"
      [some "3-byte addressing", some "3- or 4-byte addressing", some "4-byte addressing"],
    parse_bits (rd w 0) 19 19 "Double transfer rate (DTR) Clocking" SUPP_OR_NOT,
    parse_bits (rd w 0) 20 20 "1-2-2 Fast Read" SUPP_OR_NOT,
    parse_bits (rd w 0) 21 21 "1-4-4 Fast Read" SUPP_OR_NOT,
    parse_bits (rd w 0) 22 22 "1-1-4 Fast Read" SUPP_OR_NOT ]

/-- Lines of `sfdp_basic` printed from `w[1]` (source lines 136-140). -/
def basic_word1 (P : Platform) (w : List Nat) : List Out :=
  [ if bits (rd w 1) 31 31 ≠ 0 then
      p_dec_val (shl1 P (usub23 (bits (rd w 1) 30 0))) "Flash Memory Density"
        (some "in megabytes")
    else
      p_dec_val (bits (rd w 1) 30 0 / 8) "Flash Memory Density" (some "in bytes") ]

/-- Lines of `sfdp_basic` printed from `w[2]` (source lines 145-150). -/
def basic_word2 (w : List Nat) : List Out :=
  [ p_dec_val (bits (rd w 2) 4 0) "1-4-4 Fast Read Number of Wait States Needed" none,
    p_dec_val (bits (rd w 2) 7 5) "1-4-4 Fast Read Number of Mode Clocks" none,
    p_hex_val (bits (rd w 2) 15 8) "1-4-4 Fast Read Instructions" none,
    p_dec_val (bits (rd w 2) 20 16) "1-1-4 Fast Read Number of Wait States Needed" none,
    p_dec_val (bits (rd w 2) 23 21) "1-1-4 Fast Read Number of Mode Clocks" none,
    p_hex_val (bits (rd w 2) 31 24) "1-1-4 Fast Read Instructions" none ]

/-- Lines of `sfdp_basic` printed from `w[3]` (source lines 155-160). -/
def basic_word3 (w : List Nat) : List Out :=
  [ p_dec_val (bits (rd w 3) 4 0) "1-1-2 Fast Read Number of Wait States Needed" none,
    p_dec_val (bits (rd w 3) 7 5) "1-1-2 Fast Read Number of Mode Clocks" none,
    p_hex_val (bits (rd w 3) 15 8) "1-1-2 Fast Read Instructions" none,
    p_dec_val (bits (rd w 3) 20 16) "1-2-2 Fast Read Number of Wait States Needed" none,
    p_dec_val (bits (rd w 3) 23 21) "1-2-2 Fast Read Number of Mode Clocks" none,
    p_hex_val (bits (rd w 3) 31 24) "1-2-2 Fast Read Instructions" none ]

/-- Lines of `sfdp_basic` printed from `w[4]` (source lines 165-166). -/
def basic_word4 (w : List Nat) : List Out :=
  [ parse_bits (rd w 4) 0 0 "2-2-2 Fast Read" SUPP_OR_NOT,
    parse_bits (rd w 4) 4 4 "4-4-4 Fast Read" SUPP_OR_NOT ]

/-- Lines of `sfdp_basic` printed from `w[5]` (source lines 171-173). -/
def basic_word5 (w : List Nat) : List Out :=
  [ p_dec_val (bits (rd w 5) 20 16) "2-2-2 Fast Read Number of Wait States Needed" none,
    p_dec_val (bits (rd w 5) 23 21) "2-2-2 Fast Read Number of Mode Clocks" none,
    p_hex_val (bits (rd w 5) 31 24) "2-2-2 Fast Read Instructions" none ]

/-- Lines of `sfdp_basic` printed from `w[6]` (source lines 178-180). -/
def basic_word6 (w : List Nat) : List Out :=
  [ p_dec_val (bits (rd w 6) 20 16) "4-4-4 Fast Read Number of Wait States Needed" none,
    p_dec_val (bits (rd w 6) 23 21) "4-4-4 Fast Read Number of Mode Clocks" none,
    p_hex_val (bits (rd w 6) 31 24) "4-4-4 Fast Read Instructions" none ]

/-- Lines of `sfdp_basic` printed from `w[7]` (source lines 185-188). -/
def basic_word7 (P : Platform) (w : List Nat) : List Out :=
  [ p_dec_val (shl1 P (bits (rd w 7) 7 0)) "Erase Type 1 Size" (some "in bytes"),
    p_hex_val (bits (rd w 7) 15 8) "Erase Type 1 Instruction" none,
    p_dec_val (shl1 P (bits (rd w 7) 23 16)) "Erase Type 2 Size"
      (some (if bits (rd w 7) 23 16 ≠ 0 then "in bytes" else "not supported")),
    p_hex_val (bits (rd w 7) 31 24) "Erase Type 2 Instruction" none ]

/-- Lines of `sfdp_basic` printed from `w[8]` (source lines 193-196). -/
def basic_word8 (P : Platform) (w : List Nat) : List Out :=
  [ p_dec_val (shl1 P (bits (rd w 8) 7 0)) "Erase Type 3 Size"
      (some (if bits (rd w 8) 7 0 ≠ 0 then "in bytes" else "not supported")),
    p_hex_val (bits (rd w 8) 15 8) "Erase Type 3 Instruction" none,
    p_dec_val (shl1 P (bits (rd w 8) 23 16)) "Erase Type 4 Size"
      (some (if bits (rd w 8) 23 16 ≠ 0 then "in bytes" else "not supported")),
    p_hex_val (bits (rd w 8) 31 24) "Erase Type 4 Instruction" none ]

/-- Lines of `sfdp_basic` printed from `w[9]` (source lines 201-209); `tmp` is
an `unsigned`. -/
def basic_word9 (P : Platform) (w : List Nat) : List Out :=
  [ p_dec_val (2 * (1 + bits (rd w 9) 3 0))
      "Typical Erase Time to Maximum Erase Time Multiplier" none,
    p_dec_val (erase_time_mult P (bits (rd w 9) 8 4) * (bits (rd w 9) 10 9 + 1) % 2 ^ 32)
      "Erase Type 1 Typical Time" (some "in milliseconds"),
    p_dec_val (erase_time_mult P (bits (rd w 9) 17 16) * (bits (rd w 9) 15 11 + 1) % 2 ^ 32)
      "Erase Type 2 Typical Time" (some "in milliseconds"),
    p_dec_val (erase_time_mult P (bits (rd w 9) 24 23) * (bits (rd w 9) 22 18 + 1) % 2 ^ 32)
      "Erase Type 4 Typical Time" (some "in milliseconds"),
    p_dec_val (erase_time_mult P (bits (rd w 9) 31 30) * (bits (rd w 9) 29 25 + 1) % 2 ^ 32)
      "Erase Type 4 Typical Time" (some "in milliseconds") ]

/-- Lines of `sfdp_basic` printed from `w[10]` (source lines 214-223). -/
def basic_word10 (P : Platform) (w : List Nat) : List Out :=
  [ p_dec_val (2 * (1 + bits (rd w 10) 3 0))
      "Typical Program Time to Maximum Program Time Multiplier" none,
    p_dec_val (shl1 P (bits (rd w 10) 7 4)) "Page Size" none,
    p_dec_val (program_page_time_mult (bits (rd w 10) 13 13) * (bits (rd w 10) 12 8 + 1) % 2 ^ 32)
      "Typical Page Program Time" (some "in microseconds"),
    p_dec_val (program_byte_time_mult (bits (rd w 10) 18 18) * (bits (rd w 10) 17 14 + 1) % 2 ^ 32)
      "Typical First Byte Program Time" (some "in microseconds"),
    p_dec_val (program_byte_time_mult (bits (rd w 10) 23 23) * (bits (rd w 10) 22 19 + 1) % 2 ^ 32)
      "Typical Additional Byte Program Time" (some "in microseconds"),
    p_dec_val (erase_chip_time_mult (bits (rd w 10) 30 29) * (bits (rd w 10) 28 24 + 1) % 2 ^ 32)
      "Typical Chip Erase Time" (some "in milliseconds") ]

/-- Source `sfdp_basic(w, len)`: the lines printed and the value returned.
Every `if (len < k) return 0;` of the source is one `if` here. -/
def sfdp_basic (P : Platform) (w : List Nat) (len : Nat) : List Out × Int :=
  if len < 1 then ([], 0) else
  let o := basic_word0 w
  if len < 2 then (o, 0) else
  let o := o ++ basic_word1 P w
  if len < 3 then (o, 0) else
  let o := o ++ basic_word2 w
  if len < 4 then (o, 0) else
  let o := o ++ basic_word3 w
  if len < 5 then (o, 0) else
  let o := o ++ basic_word4 w
  if len < 6 then (o, 0) else
  let o := o ++ basic_word5 w
  if len < 7 then (o, 0) else
  let o := o ++ basic_word6 w
  if len < 8 then (o, 0) else
  let o := o ++ basic_word7 P w
  if len < 9 then (o, 0) else
  let o := o ++ basic_word8 P w
  if len < 10 then (o, 0) else
  let o := o ++ basic_word9 P w
  if len < 11 then (o, 0) else
  let o := o ++ basic_word10 P w
  (o, 0)

/-- Source `sfdp_unknown_param`, the fallback handler record. -/
def sfdp_unknown_param : sfdp_param_handler :=
  ⟨0, "Unknown parameter", sfdp_unknown_parameter⟩

/-- Source table `handlers[]`: its single entry. -/
def handlers (P : Platform) : List sfdp_param_handler :=
  [⟨0xff00, "Basic flash parameter table", sfdp_basic P⟩]

/-- The record the C expression `handlers[i]` denotes: entry `i` of the table,
and `none` when `i` is not an index of the table, the read being outside the
array. -/
def handlers_at (P : Platform) (i : Nat) : Option sfdp_param_handler :=
  (handlers P).get? i

/-- The handler search of `main` (source lines 293 and 298-303), for directory
index `i` and entry ID `id`; the last argument counts the iterations of the
`j` loop still to run. The body compares with `handlers[i]`, as the source
does. The result is `none` when an iteration reads `handlers[i]` outside the
table: the search has no defined outcome then. -/
def find_handler (P : Platform) (i id : Nat) : Nat → Option sfdp_param_handler
  | 0 => some sfdp_unknown_param
  | k + 1 =>
    match handlers_at P i with
    | none => none
    | some entry => if id = entry.id then some entry else find_handler P i id k

/-! ## Input buffer -/

/-- Source `SFDP_SIGNATURE`. -/
def SFDP_SIGNATURE : Nat := 0x50444653

/-- Number of bytes of `buf` (`sizeof buf`, 4096 words). -/
def BUF_BYTES : Nat := 4096 * 4

/-- Size of the fixed header, `sizeof *sfdp`. -/
def HDR_BYTES : Nat := 8

/-- Library `bswap_32`: the four bytes of a 32-bit word in reverse order. -/
def bswap_32 (x : Nat) : Nat :=
  x % 256 * 2 ^ 24 + x / 2 ^ 8 % 256 * 2 ^ 16 + x / 2 ^ 16 % 256 * 2 ^ 8 + x / 2 ^ 24 % 256

/-- The word four consecutive bytes of memory form on the host. -/
def le32 (b0 b1 b2 b3 : Nat) : Nat :=
  b0 % 256 + b1 % 256 * 2 ^ 8 + b2 % 256 * 2 ^ 16 + b3 % 256 * 2 ^ 24

/-- The words of `buf` that a byte sequence stored from its start covers; the
bytes of the last word that were not stored are 0. -/
def pack_words : List Nat → List Nat
  | [] => []
  | [b0] => [le32 b0 0 0 0]
  | [b0, b1] => [le32 b0 b1 0 0]
  | [b0, b1, b2] => [le32 b0 b1 b2 0]
  | b0 :: b1 :: b2 :: b3 :: rest => le32 b0 b1 b2 b3 :: pack_words rest

/-- Library `fread(buf, 1, sizeof buf, f)` on a stream holding `input`: the
buffer afterwards and the number of bytes read. -/
def fread (input : List Nat) : List Nat × Nat :=
  (pack_words (input.take BUF_BYTES), min input.length BUF_BYTES)

/-- Byte `k` of the buffer, as the `struct` views of `main` read it. -/
def byte_at (buf : List Nat) (k : Nat) : Nat := rd buf (k / 4) / 256 ^ (k % 4) % 256

/-- The loop `for (i = 0; i < n; i++) buf[i] = bswap_32(buf[i]);`. -/
def swap_words (buf : List Nat) (n : Nat) : List Nat :=
  (List.range n).foldl (fun b i => b.set i (bswap_32 (rd b i))) buf

/-- Byte-order normalisation of `main` (source lines 276-279). -/
def normalise (buf : List Nat) (sz : Nat) : List Nat :=
  if rd buf 0 = bswap_32 SFDP_SIGNATURE then swap_words buf (sz / 4) else buf

/-! ## Header and directory -/

/-- Field `sfdp->hdr.signature`. -/
def hdr_signature (buf : List Nat) : Nat := rd buf 0

/-- Field `sfdp->hdr.minor`. -/
def hdr_minor (buf : List Nat) : Nat := byte_at buf 4

/-- Field `sfdp->hdr.major`. -/
def hdr_major (buf : List Nat) : Nat := byte_at buf 5

/-- Field `sfdp->hdr.nph`. -/
def hdr_nph (buf : List Nat) : Nat := byte_at buf 6

/-- Byte offset of `sfdp->param[i]` in the buffer. -/
def param_at (i : Nat) : Nat := HDR_BYTES + 8 * i

/-- Field `sfdp->param[i].id_lsb`. -/
def param_id_lsb (buf : List Nat) (i : Nat) : Nat := byte_at buf (param_at i)

/-- Field `sfdp->param[i].minor`. -/
def param_minor (buf : List Nat) (i : Nat) : Nat := byte_at buf (param_at i + 1)

/-- Field `sfdp->param[i].major`. -/
def param_major (buf : List Nat) (i : Nat) : Nat := byte_at buf (param_at i + 2)

/-- Field `sfdp->param[i].len`. -/
def param_len (buf : List Nat) (i : Nat) : Nat := byte_at buf (param_at i + 3)

/-- Field `sfdp->param[i].ptr[j]`. -/
def param_ptr (buf : List Nat) (i j : Nat) : Nat := byte_at buf (param_at i + 4 + j)

/-- Field `sfdp->param[i].id_msb`. -/
def param_id_msb (buf : List Nat) (i : Nat) : Nat := byte_at buf (param_at i + 7)

/-- Local `id` of the directory loop: `p->id_msb << 8 | p->id_lsb`. -/
def param_id (buf : List Nat) (i : Nat) : Nat :=
  param_id_msb buf i <<< 8 ||| param_id_lsb buf i

/-- Local `off` of the directory loop:
`p->ptr[2] << 16 | p->ptr[1] << 8 | p->ptr[0]`. -/
def param_off (buf : List Nat) (i : Nat) : Nat :=
  param_ptr buf i 2 <<< 16 ||| param_ptr buf i 1 <<< 8 ||| param_ptr buf i 0

/-- Local `h` of the directory loop once the handler search is over (source
lines 293-303); `none` when the search is not defined. -/
def param_handler (P : Platform) (buf : List Nat) (i : Nat) : Option sfdp_param_handler :=
  find_handler P i (param_id buf i) (handlers P).length

/-- The title and the five header lines of directory entry `i` for the handler
`h` found (source lines 305-310). The line of the ID is printed under the name
"Major", as in the source. -/
def param_head (h : sfdp_param_handler) (buf : List Nat) (i : Nat) : List Out :=
  [ Out.title i h.name,
    p_hex_val (param_id buf i) "Major" none,
    p_dec_val (param_major buf i) "Major" none,
    p_dec_val (param_minor buf i) "Minor" none,
    p_dec_val (param_off buf i) "Offset"
      (if param_off buf i % 4 ≠ 0 then some "Invalid alignment" else none),
    p_dec_val (param_len buf i * 4) "Length" none ]

/-- The directory loop body of `main` for index `i` after the handler search
found `h` (source lines 305-320): what it prints and what it reports. -/
def param_body (h : sfdp_param_handler) (buf : List Nat) (sz i : Nat) :
    List Out × List Diag :=
  let id := param_id buf i
  let off := param_off buf i
  let o := param_head h buf i
  if off % 4 ≠ 0 then (o, [Diag.unaligned id])
  else if off + param_len buf i * 4 ≤ sz then
    (o ++ (h.dumper (buf.drop (off / 4)) (param_len buf i)).1, [])
  else (o, [Diag.behind id])

/-- Body of the directory loop of `main` for index `i` (source lines 293-320);
`none` when the handler search reads outside the table. -/
def param_entry (P : Platform) (buf : List Nat) (sz i : Nat) :
    Option (List Out × List Diag) :=
  match param_handler P buf i with
  | none => none
  | some h => some (param_body h buf sz i)

/-- The directory loop `for (i = 0; i <= sfdp->hdr.nph; i++)`: the first
argument counts the iterations still to run, the second is `i`. The loop has
no defined outcome as soon as one iteration has none. -/
def dir_walk (P : Platform) (buf : List Nat) (sz : Nat) :
    Nat → Nat → Option (List Out × List Diag)
  | 0, _ => some ([], [])
  | k + 1, i =>
    match param_entry P buf sz i with
    | none => none
    | some e =>
      match dir_walk P buf sz k (i + 1) with
      | none => none
      | some rest => some (e.1 ++ rest.1, e.2 ++ rest.2)

/-- Result of a run that has one: exit status, standard output, error
channel. -/
structure Run where
  status : Nat
  out : List Out
  err : List Diag
  deriving DecidableEq

/-- The five lines of the header block (source lines 286-290). -/
def header_block (buf : List Nat) (sz : Nat) : List Out :=
  [ p_hex_val (hdr_signature buf) "Signature" (some "Must be 0x50444653 ('S', 'F', 'D', 'P')"),
    p_dec_val (hdr_major buf) "Major" none,
    p_dec_val (hdr_minor buf) "Minor" none,
    p_dec_val (hdr_nph buf + 1) "Parameters" none,
    p_dec_val sz "Total length" none ]

/-- Source `main`, from the `fread` on (source lines 269-323), run on a stream
holding the bytes `input`; `none` when the directory loop reads `handlers[i]`
outside the table, the run having no defined result. -/
def main (P : Platform) (input : List Nat) : Option Run :=
  let sz := (fread input).2
  if sz < HDR_BYTES then some ⟨1, [], [Diag.too_short]⟩ else
  let buf := normalise (fread input).1 sz
  if hdr_signature buf ≠ SFDP_SIGNATURE then
    some ⟨2, [], [Diag.bad_signature (hdr_signature buf)]⟩ else
  match dir_walk P buf sz (hdr_nph buf + 1) 0 with
  | none => none
  | some walk => some ⟨0, header_block buf sz ++ walk.1, walk.2⟩

/-- The number of bytes a run reads from `input`: local `sz` of `main`. -/
def nread (input : List Nat) : Nat := (fread input).2

/-- The buffer `buf` of a run on `input` once the byte order is fixed. -/
def parsed (input : List Nat) : List Nat := normalise (fread input).1 (fread input).2

/-- A platform to run the embedding on concrete tables, with the values of an
x86-64 host: the count of a shift is taken modulo 32, so `1 << 31` is
2147483648. The word behind `erase_time_mult` is not fixed by the source; it
is 0 here, and no instance below reads it. -/
def host_platform : Platform :=
  ⟨fun n => 2 ^ (n % 32), fun _ => 0⟩

/-- A 24-byte dump whose only directory entry (ID 0xFF00, one word) has the
byte offset 5. -/
def unaligned_dump : List Nat :=
  [ 0x53, 0x46, 0x44, 0x50, 0x00, 0x01, 0x00, 0xff,
    0x00, 0x00, 0x01, 0x01, 0x05, 0x00, 0x00, 0xff,
    0x00, 0x00, 0x00, 0x00, 0x03, 0x00, 0x00, 0x00 ]

/-- A 28-byte dump with two directory entries, both of ID 0xFF00 and both
pointing to the one word `0x00000003` at byte offset 24. -/
def two_basic_dump : List Nat :=
  [ 0x53, 0x46, 0x44, 0x50, 0x00, 0x01, 0x01, 0xff,
    0x00, 0x00, 0x01, 0x01, 0x18, 0x00, 0x00, 0xff,
    0x00, 0x00, 0x01, 0x01, 0x18, 0x00, 0x00, 0xff,
    0x03, 0x00, 0x00, 0x00 ]

/-- A 36-byte dump with three directory entries: the first at the byte offset
5, the second (four words at offset 256) behind the end of the dump, the third
one word at offset 32. -/
def mixed_dump : List Nat :=
  [ 0x53, 0x46, 0x44, 0x50, 0x00, 0x01, 0x02, 0xff,
    0x00, 0x00, 0x01, 0x01, 0x05, 0x00, 0x00, 0xff,
    0x01, 0x00, 0x01, 0x04, 0x00, 0x01, 0x00, 0x00,
    0x00, 0x00, 0x01, 0x01, 0x20, 0x00, 0x00, 0xff,
    0x03, 0x00, 0x00, 0x00 ]

/-- A 56-byte dump with one directory entry (ID 0xFF00, ten words at byte
offset 16) whose table has the words 0 to 8 zero and word 9 `0x00000010`. -/
def erase_time_dump : List Nat :=
  [ 0x53, 0x46, 0x44, 0x50, 0x00, 0x01, 0x00, 0xff,
    0x00, 0x00, 0x01, 0x0a, 0x10, 0x00, 0x00, 0xff,
    0x00, 0x00, 0x00, 0x00, 0x00, 0x00, 0x00, 0x00,
    0x00, 0x00, 0x00, 0x00, 0x00, 0x00, 0x00, 0x00,
    0x00, 0x00, 0x00, 0x00, 0x00, 0x00, 0x00, 0x00,
    0x00, 0x00, 0x00, 0x00, 0x00, 0x00, 0x00, 0x00,
    0x00, 0x00, 0x00, 0x00, 0x10, 0x00, 0x00, 0x00 ]

/-- The eleven groups of lines of `sfdp_basic`, one for each word decoded, in
the order of the source. -/
def basic_groups (P : Platform) (w : List Nat) : List (List Out) :=
  [ basic_word0 w, basic_word1 P w, basic_word2 w, basic_word3 w, basic_word4 w,
    basic_word5 w, basic_word6 w, basic_word7 P w, basic_word8 P w, basic_word9 P w,
    basic_word10 P w ]

/-! ## Text of the output

A C string is a `String` whose characters stand for the `char`s of the C
string, so `strlen` is `String.length`. -/

/-- Source `NAME_LEN`. -/
def NAME_LEN : Nat := 47

/-- Library `printf` conversion `%u` of a 32-bit value, without field width. -/
def conv_u (val : Nat) : String := Nat.repr val

/-- Library `printf` conversion `%#x` of a 32-bit value, without field width:
lower-case hexadecimal digits behind the prefix `0x`, which the value 0 does
not get. -/
def conv_x (val : Nat) : String :=
  if val = 0 then "0" else "0x" ++ String.mk (Nat.toDigits 16 val)

/-- The conversion `hex ? "%#x" : "%u"` of `val`. -/
def conv (hex : Bool) (val : Nat) : String := if hex then conv_x val else conv_u val

/-- A run of `n` blanks: the `printf` conversion `%-ns` of the empty string. -/
def spaces (n : Nat) : String := String.mk (List.replicate n ' ')

/-- A converted value in a field of minimum width `width`, right-justified with
blanks, as `printf` lays it out; a value longer than the field is printed in
full. -/
def pad_left (width : Nat) (s : String) : String := spaces (width - s.length) ++ s

/-- Local `indent` of `p_num_val` at the final `snprintf`: `NAME_LEN -
strlen(name)`, set to 1 when that is below 1 (source lines 45-52). -/
def p_num_val_indent (name : String) : Nat :=
  if (NAME_LEN : Int) - name.length < 1 then 1 else ((NAME_LEN : Int) - name.length).toNat

/-- Local `numlen` of `p_num_val` at the final `snprintf`: 10, and for a name
that leaves no indent `10 + strlen(fmt) + indent - 2` but at least 0, `fmt`
holding the converted value at that point (source lines 37 and 46-50). -/
def p_num_val_numlen (val : Nat) (name : String) (hex : Bool) : Nat :=
  if (NAME_LEN : Int) - name.length < 1 then
    (max 0 ((10 : Int) + (conv hex val).length + ((NAME_LEN : Int) - name.length) - 2)).toNat
  else 10

/-- The text `printf` emits for the description: `" (%s)"` of it, or `"%s"` of
the empty string when it is `NULL` (source lines 36 and 40-43). -/
def description_text (description : Option String) : String :=
  match description with
  | some d => " (" ++ d ++ ")"
  | none => ""

/-- The format `p_num_val` builds in `fmt` at source line 54, from
`"%%s:%%-%ds%%%s%d%c%s\n"`. -/
def p_num_val_fmt (val : Nat) (name : String) (description : Option String) (hex : Bool) :
    String :=
  "%s:%-" ++ Nat.repr (p_num_val_indent name) ++ "s%" ++ (if hex then "#" else "")
    ++ Nat.repr (p_num_val_numlen val name hex) ++ (if hex then "x" else "u")
    ++ (match description with
        | some _ => " (%s)"
        | none => "%s")
    ++ "\n"

/-- The line `p_num_val` prints (source lines 33-56): `printf` applies the
format `p_num_val_fmt` to the name, the empty string, the value and the
description. A `numlen` of 0 makes the conversion `%0u` or `%#0x`, where `0`
is a flag and no width is given, which prints the same as a width of 0. -/
def p_num_val_text (val : Nat) (name : String) (description : Option String) (hex : Bool) :
    String :=
  name ++ ":" ++ spaces (p_num_val_indent name)
    ++ pad_left (p_num_val_numlen val name hex) (conv hex val)
    ++ description_text description ++ "\n"

/-- The text of one print call: a `p_num_val` line, or the title
`printf("\n\nParameter %d (%s)\n", i, name)` of a directory entry. -/
def Out.render : Out → String
  | Out.num val name description hex => p_num_val_text val name description hex
  | Out.title i name => "\n\nParameter " ++ Nat.repr i ++ " (" ++ name ++ ")\n"

/-- The description argument of a `p_num_val` call. -/
def Out.description : Out → Option String
  | Out.num _ _ description _ => description
  | Out.title _ _ => none

/-- The 24-byte dump of header (major 1, minor 0, one parameter), one directory
entry (ID 0xFF00, one word at byte offset 20) and the word `0x00000003`. -/
def minimal_dump : List Nat :=
  [ 0x53, 0x46, 0x44, 0x50, 0x00, 0x01, 0x00, 0xff,
    0x00, 0x00, 0x01, 0x01, 0x14, 0x00, 0x00, 0xff,
    0x00, 0x00, 0x00, 0x00, 0x03, 0x00, 0x00, 0x00 ]

/-- The longest field name of the header and directory lines. -/
def short_name : String := "Total length"

/-- A field name of `sfdp_basic` of 51 characters, longer than the name column. -/
def long_name : String := "Typical Erase Time to Maximum Erase Time Multiplier"

/-- A field name of `sfdp_basic` of 64 characters. -/
def longest_name : String :=
  "Write Enable Instruction for Writing to Volatile Status Register"

end Sfdp

/-! # Boot-area programming (`src/main.c`)

The registers of the flash controller are memory-mapped; a read of
`FLASH->CTLR` is a 32-bit value given to the embedding. The calls of
`flash_boot_program256` made by `flash_boot_prog` are recorded in order as
pairs of address and size. -/

namespace Boot

/-- Value of the condition of the wait loop of `flash_boot_program256` at source
line 74, `FLASH->CTLR & 0x20010000 != 0x20010000`, for a value `ctlr` read from
the register. In C `!=` binds tighter than `&`: the expression is
`ctlr & (0x20010000 != 0x20010000)`, and a comparison yields 1 or 0. -/
def sanity_wait_cond (ctlr : Nat) : Nat :=
  ctlr &&& (if (0x20010000 : Nat) ≠ 0x20010000 then 1 else 0)

/-- Source `start_addr` of `flash_boot_prog`. -/
def start_addr : Nat := 0x1fff8000

/-- The `while (left > 0)` loop of `flash_boot_prog` (source lines 139-152) from
the state `left`, `offset`: the calls `flash_boot_program256(start_addr +
offset, buf, tocpy)` it makes, as pairs of address and size. The first argument
bounds the number of iterations; the result is `none` when the bound is reached
with the loop still running. The arithmetic is that of `uint32_t`. -/
def flash_boot_prog_loop : Nat → Nat → Nat → Option (List (Nat × Nat))
  | 0, left, _ => if left > 0 then none else some []
  | fuel + 1, left, offset =>
    if left > 0 then
      let tocpy := if 0x100 > left then left else 0x100
      match flash_boot_prog_loop fuel ((left + 2 ^ 32 - tocpy) % 2 ^ 32)
          ((offset + tocpy) % 2 ^ 32) with
      | some calls => some (((start_addr + offset) % 2 ^ 32, tocpy) :: calls)
      | none => none
    else some []

/-- Source `flash_boot_prog` for an image of `n = boot_small_bin_size` bytes;
the size is declared in `boot.h` and is an argument here. `left` starts at `n`
and `offset` at 0. -/
def flash_boot_prog (fuel n : Nat) : Option (List (Nat × Nat)) :=
  flash_boot_prog_loop fuel (n % 2 ^ 32) 0

end Boot

namespace Sfdp

/-! ## Bit-field extractor -/

theorem mask_eq (high : Nat) (hh : high ≤ 31) :
    0xFFFFFFFF >>> (31 - high) = 2 ^ (high + 1) - 1 := by
  interval_cases high <;> rfl

theorem bits_eq (w high low : Nat) (hlh : low ≤ high) (hh : high ≤ 31) :
    bits w high low = (w >>> low) % 2 ^ (high - low + 1) := by
  unfold bits
  rw [mask_eq high hh, Nat.and_pow_two_sub_one_eq_mod, Nat.shiftRight_eq_div_pow,
    Nat.shiftRight_eq_div_pow]
  have h : 2 ^ (high + 1) = 2 ^ low * 2 ^ (high - low + 1) := by
    rw [← pow_add]; congr 1; omega
  rw [h, Nat.mod_mul_right_div_self]

theorem bits_lt (w high low : Nat) (hlh : low ≤ high) (hh : high ≤ 31) :
    bits w high low < 2 ^ (high - low + 1) := by
  rw [bits_eq w high low hlh hh]
  exact Nat.mod_lt _ (by positivity)

theorem rd_lt (w : List Nat) (k : Nat) : rd w k < 2 ^ 32 :=
  Nat.mod_lt _ (by norm_num)

/-- C5. For a 32-bit word `w` and a range `low ≤ high ≤ 31`, `bits w high low`
is `(w >> low) mod 2^(high-low+1)`, the bits `low..high` of `w` right-aligned;
`bits w 31 0` is `w` itself, and `bits w n n` is 0 or 1 for every `n ≤ 31`. -/
theorem C5_bits_extracts_range (w high low : Nat) (hw : w < 2 ^ 32) (hlh : low ≤ high)
    (hh : high ≤ 31) :
    bits w high low = (w >>> low) % 2 ^ (high - low + 1) ∧
    bits w 31 0 = w ∧
    ∀ n, n ≤ 31 → bits w n n = 0 ∨ bits w n n = 1 := by
  refine ⟨bits_eq w high low hlh hh, ?_, ?_⟩
  · rw [bits_eq w 31 0 (by norm_num) (by norm_num)]
    simpa using Nat.mod_eq_of_lt hw
  · intro n hn
    have h := bits_lt w n n le_rfl hn
    simp only [Nat.sub_self, zero_add, pow_one] at h
    omega

/-- Instance of C5 for the word `0xDEADBEEF` and the range 15..8. -/
theorem C5_bits_extracts_range_witness :
    bits 0xDEADBEEF 15 8 = (0xDEADBEEF >>> 8) % 2 ^ (15 - 8 + 1) ∧
    bits 0xDEADBEEF 31 0 = 0xDEADBEEF ∧
    ∀ n, n ≤ 31 → bits 0xDEADBEEF n n = 0 ∨ bits 0xDEADBEEF n n = 1 :=
  C5_bits_extracts_range 0xDEADBEEF 15 8 (by norm_num) (by norm_num) (by norm_num)


/-! ## Basic flash parameter table -/

theorem sfdp_basic_eq (P : Platform) (w : List Nat) (len : Nat) :
    sfdp_basic P w len = (((basic_groups P w).take len).flatten, 0) := by
  rcases len with _|_|_|_|_|_|_|_|_|_|_|n <;>
    simp [sfdp_basic, basic_groups]
  repeat rw [if_neg (by omega)]

theorem parse_bits_eq (w high low : Nat) (name : String) (arr : List (Option String)) :
    parse_bits w high low name arr =
      p_hex_val (bits w high low) name
        (some ((arr.getD (bits w high low) none).getD "Invalid value")) := by
  unfold parse_bits
  rw [List.getD_eq_getElem?_getD]
  simp only [List.get?_eq_getElem?]
  rcases h : arr[bits w high low]? with _ | _ | s <;> simp

theorem sfdp_basic_getElem? (P : Platform) (w : List Nat) (len k : Nat)
    (hk : k < ((basic_groups P w).take len).flatten.length) :
    (sfdp_basic P w len).1[k]? = (basic_groups P w).flatten[k]? := by
  rw [sfdp_basic_eq]
  have h : (basic_groups P w).flatten =
      ((basic_groups P w).take len).flatten ++ ((basic_groups P w).drop len).flatten := by
    rw [← List.flatten_append, List.take_append_drop]
  rw [h, List.getElem?_append_left hk]

theorem basic_take_length (P : Platform) (w : List Nat) (len : Nat) :
    ((basic_groups P w).take len).flatten.length =
      [0, 11, 12, 18, 24, 26, 29, 32, 36, 40, 45, 51].getD len 51 := by
  rcases len with _|_|_|_|_|_|_|_|_|_|_|n
  case succ.succ.succ.succ.succ.succ.succ.succ.succ.succ.succ =>
    have h51 : (basic_groups P w).flatten.length = 51 := rfl
    rw [List.take_of_length_le (by simp [basic_groups]), h51]
    rcases n with _ | n
    · rfl
    · simp
  all_goals rfl

/-- C10. A shorter Basic table yields an initial segment of the full decode: the
lines `sfdp_basic` prints for length `n` open the lines it prints for length
`n + 1` on the same words; it returns 0; length 0 prints nothing; every length
from 11 on prints what length 11 prints; and the numbers of lines for lengths
0 to 11 are 0, 11, 12, 18, 24, 26, 29, 32, 36, 40, 45, 51. -/
theorem C10_shorter_table_is_initial_segment (P : Platform) (w : List Nat) (n : Nat) :
    (sfdp_basic P w n).1 <+: (sfdp_basic P w (n + 1)).1 ∧
    (sfdp_basic P w n).2 = 0 ∧
    (sfdp_basic P w 0).1 = [] ∧
    (11 ≤ n → (sfdp_basic P w n).1 = (sfdp_basic P w 11).1) ∧
    (List.range 12).map (fun k => (sfdp_basic P w k).1.length) =
      [0, 11, 12, 18, 24, 26, 29, 32, 36, 40, 45, 51] := by
  refine ⟨?_, ?_, ?_, ?_, ?_⟩
  · simp only [sfdp_basic_eq, List.take_succ, List.flatten_append]
    exact List.prefix_append _ _
  · simp [sfdp_basic_eq]
  · simp [sfdp_basic_eq]
  · intro hn
    simp only [sfdp_basic_eq]
    rw [List.take_of_length_le (by simpa [basic_groups] using hn),
      List.take_of_length_le (by simp [basic_groups])]
  · rfl

theorem line_count_ge (len m : Nat) (hm : m ≤ 11) (h : m ≤ len) :
    [0, 11, 12, 18, 24, 26, 29, 32, 36, 40, 45, 51].getD m 51 ≤
      [0, 11, 12, 18, 24, 26, 29, 32, 36, 40, 45, 51].getD len 51 := by
  rcases len with _|_|_|_|_|_|_|_|_|_|_|n <;> interval_cases m <;> simp at h ⊢

theorem basic_line (P : Platform) (w : List Nat) (len m k : Nat) (hm : m ≤ 11) (h : m ≤ len)
    (hk : k < [0, 11, 12, 18, 24, 26, 29, 32, 36, 40, 45, 51].getD m 51) :
    (sfdp_basic P w len).1[k]? = (basic_groups P w).flatten[k]? := by
  apply sfdp_basic_getElem?
  rw [basic_take_length]
  exact lt_of_lt_of_le hk (line_count_ge len m hm h)

/-- C9. The line `parse_bits` prints carries the extracted value `b` and the
string of slot `b` of the table when `b` is an index of the table and the slot
is filled, and "Invalid value" otherwise, an empty slot and an index outside
the table alike. For a Basic table of length at least 1, the first line is
"Erase Size" with `b = bits[1:0]` of word 0, described "4kB supported" for
`b` 1 or 3 and "Invalid value" for 0 or 2; the "Address Bytes" line is
"Invalid value" when `bits[18:17]` is 3. -/
theorem C9_parse_bits_lookup (P : Platform) (w : List Nat) (len : Nat) (hlen : 1 ≤ len)
    (x high low : Nat) (name : String) (arr : List (Option String)) :
    parse_bits x high low name arr =
      p_hex_val (bits x high low) name
        (some ((arr.getD (bits x high low) none).getD "Invalid value")) ∧
    (sfdp_basic P w len).1[0]? =
      some (p_hex_val (bits (rd w 0) 1 0) "Erase Size"
        (some (if bits (rd w 0) 1 0 = 1 ∨ bits (rd w 0) 1 0 = 3 then "4kB supported"
          else "Invalid value"))) ∧
    (bits (rd w 0) 18 17 = 3 →
      (sfdp_basic P w len).1[6]? = some (p_hex_val 3 "Address Bytes" (some "Invalid value"))) := by
  refine ⟨parse_bits_eq x high low name arr, ?_, ?_⟩
  · have hb := bits_lt (rd w 0) 1 0 (by norm_num) (by norm_num)
    have h0 : (basic_groups P w).flatten[0]? = some (parse_bits (rd w 0) 1 0 "Erase Size"
        [none, some "4kB supported", none, some "4kB supported"]) := rfl
    rw [basic_line P w len 1 0 (by norm_num) hlen (by norm_num), h0, parse_bits_eq]
    generalize bits (rd w 0) 1 0 = b at hb ⊢
    have hd : ([none, some "4kB supported", none, some "4kB supported"].getD b none).getD
        "Invalid value" = if b = 1 ∨ b = 3 then "4kB supported" else "Invalid value" := by
      norm_num at hb
      interval_cases b <;> rfl
    rw [hd]
  · intro h3
    have h6 : (basic_groups P w).flatten[6]? = some (parse_bits (rd w 0) 18 17 "Address Bytes"
        [some "3-byte addressing", some "3- or 4-byte addressing", some "4-byte addressing"]) :=
      rfl
    rw [basic_line P w len 1 6 (by norm_num) hlen (by norm_num), h6, parse_bits_eq, h3]
    rfl

/-- Instance of C9 for a one-word table with word 0 `0x00060003`. -/
theorem C9_parse_bits_lookup_witness :
    parse_bits 0x60003 18 17 "Address Bytes"
        [some "3-byte addressing", some "3- or 4-byte addressing", some "4-byte addressing"] =
      p_hex_val 3 "Address Bytes" (some "Invalid value") ∧
    (sfdp_basic host_platform [0x60003] 1).1[0]? =
      some (p_hex_val 3 "Erase Size" (some "4kB supported")) ∧
    (sfdp_basic host_platform [0x60003] 1).1[6]? =
      some (p_hex_val 3 "Address Bytes" (some "Invalid value")) :=
  have h := C9_parse_bits_lookup host_platform [0x60003] 1 (by norm_num) 0x60003 18 17
    "Address Bytes"
    [some "3-byte addressing", some "3- or 4-byte addressing", some "4-byte addressing"]
  ⟨h.1, h.2.1, h.2.2 (by decide)⟩

theorem usub23_eq (a : Nat) (h : 23 ≤ a) (h2 : a < 2 ^ 32) : usub23 a = a - 23 := by
  unfold usub23
  omega

/-- C8. For a Basic table of length at least 2, with `N = bits[30:0]` of word 1:
when bit 31 is set and `23 ≤ N ≤ 53` the "Flash Memory Density" line shows
`2^(N-23)` in decimal with description "in megabytes"; when bit 31 is clear it
shows `N / 8` (rounded down) with description "in bytes". -/
theorem C8_density_line (P : Platform) (w : List Nat) (len : Nat) (hlen : 2 ≤ len) :
    (bits (rd w 1) 31 31 = 1 → 23 ≤ bits (rd w 1) 30 0 → bits (rd w 1) 30 0 ≤ 53 →
      (sfdp_basic P w len).1[11]? =
        some (p_dec_val (2 ^ (bits (rd w 1) 30 0 - 23)) "Flash Memory Density"
          (some "in megabytes"))) ∧
    (bits (rd w 1) 31 31 = 0 →
      (sfdp_basic P w len).1[11]? =
        some (p_dec_val (bits (rd w 1) 30 0 / 8) "Flash Memory Density" (some "in bytes"))) := by
  have h11 : (basic_groups P w).flatten[11]? = some
      (if bits (rd w 1) 31 31 ≠ 0 then
        p_dec_val (shl1 P (usub23 (bits (rd w 1) 30 0))) "Flash Memory Density"
          (some "in megabytes")
      else
        p_dec_val (bits (rd w 1) 30 0 / 8) "Flash Memory Density" (some "in bytes")) := rfl
  rw [basic_line P w len 2 11 (by norm_num) hlen (by norm_num), h11]
  refine ⟨fun hset hlo hhi => ?_, fun hclear => ?_⟩
  · rw [if_pos (by omega), usub23_eq _ hlo (by omega)]
    unfold shl1
    rw [if_pos (by omega)]
  · rw [if_neg (by omega)]

/-- Instances of C8: word 1 `0x80000017` shows 1 megabyte, word 1 `0x00000040`
shows 8 bytes. -/
theorem C8_density_line_witness :
    (sfdp_basic host_platform [0, 0x80000017] 2).1[11]? =
      some (p_dec_val 1 "Flash Memory Density" (some "in megabytes")) ∧
    (sfdp_basic host_platform [0, 0x00000040] 2).1[11]? =
      some (p_dec_val 8 "Flash Memory Density" (some "in bytes")) :=
  ⟨(C8_density_line host_platform [0, 0x80000017] 2 (by norm_num)).1 (by decide) (by decide)
      (by decide),
   (C8_density_line host_platform [0, 0x00000040] 2 (by norm_num)).2 (by decide)⟩

theorem erase_time_mult_eq (P : Platform) (k : Nat) (hk : k < 4) :
    erase_time_mult P k = [1, 16, 128, 1000].getD k 0 := by
  interval_cases k <;> rfl

theorem erase_time_le (P : Platform) (k c : Nat) (hk : k < 4) (hc : c < 32) :
    erase_time_mult P k * (c + 1) % 2 ^ 32 = [1, 16, 128, 1000].getD k 0 * (c + 1) := by
  rw [erase_time_mult_eq P k hk]
  apply Nat.mod_eq_of_lt
  interval_cases k <;> simp <;> omega

/-- C7, the code evaluated. For a ten-word Basic table whose word 9 is
`0x00000010` (`bits[10:9] = 0`, `bits[8:4] = 1`) the "Erase Type 1 Typical
Time" line shows 16 on every platform, whereas
`time_mult_table[bits[10:9]] * (bits[8:4] + 1)` is 2; so does the run on
`erase_time_dump`, a dump holding this table. For every table of
length at least 10 that line is `erase_time_mult[bits[8:4]] * (bits[10:9] + 1)`,
the two fields of the first group taken in each other's place; the multiplier
line is `2 * (1 + bits[3:0])` and the other three groups are
`time_mult_table[exp] * (count + 1)` with the fields `[17:16]`/`[15:11]`,
`[24:23]`/`[22:18]` and `[31:30]`/`[29:25]`. -/
theorem C7_erase_type1_fields_swapped :
    (∀ P : Platform, (sfdp_basic P [0, 0, 0, 0, 0, 0, 0, 0, 0, 0x00000010] 10).1[41]? =
      some (p_dec_val 16 "Erase Type 1 Typical Time" (some "in milliseconds"))) ∧
    [1, 16, 128, 1000].getD (bits 0x00000010 10 9) 0 * (bits 0x00000010 8 4 + 1) = 2 ∧
    (∀ P : Platform, (main P erase_time_dump).bind (fun r => r.out[52]?) =
      some (p_dec_val 16 "Erase Type 1 Typical Time" (some "in milliseconds"))) ∧
    (∀ (P : Platform) (w : List Nat) (len : Nat), 10 ≤ len →
      (sfdp_basic P w len).1[40]? =
        some (p_dec_val (2 * (1 + bits (rd w 9) 3 0))
          "Typical Erase Time to Maximum Erase Time Multiplier" none) ∧
      (sfdp_basic P w len).1[41]? =
        some (p_dec_val (erase_time_mult P (bits (rd w 9) 8 4) * (bits (rd w 9) 10 9 + 1) % 2 ^ 32)
          "Erase Type 1 Typical Time" (some "in milliseconds")) ∧
      (sfdp_basic P w len).1[42]? =
        some (p_dec_val ([1, 16, 128, 1000].getD (bits (rd w 9) 17 16) 0 * (bits (rd w 9) 15 11 + 1))
          "Erase Type 2 Typical Time" (some "in milliseconds")) ∧
      (sfdp_basic P w len).1[43]? =
        some (p_dec_val ([1, 16, 128, 1000].getD (bits (rd w 9) 24 23) 0 * (bits (rd w 9) 22 18 + 1))
          "Erase Type 4 Typical Time" (some "in milliseconds")) ∧
      (sfdp_basic P w len).1[44]? =
        some (p_dec_val ([1, 16, 128, 1000].getD (bits (rd w 9) 31 30) 0 * (bits (rd w 9) 29 25 + 1))
          "Erase Type 4 Typical Time" (some "in milliseconds"))) := by
  refine ⟨fun P => rfl, by decide, fun P => rfl, fun P w len hlen => ⟨?_, ?_, ?_, ?_, ?_⟩⟩
  · rw [basic_line P w len 10 40 (by norm_num) hlen (by norm_num)]; rfl
  · rw [basic_line P w len 10 41 (by norm_num) hlen (by norm_num)]; rfl
  · rw [basic_line P w len 10 42 (by norm_num) hlen (by norm_num),
      ← erase_time_le P _ _ (bits_lt (rd w 9) 17 16 (by norm_num) (by norm_num))
        (bits_lt (rd w 9) 15 11 (by norm_num) (by norm_num))]
    rfl
  · rw [basic_line P w len 10 43 (by norm_num) hlen (by norm_num),
      ← erase_time_le P _ _ (bits_lt (rd w 9) 24 23 (by norm_num) (by norm_num))
        (bits_lt (rd w 9) 22 18 (by norm_num) (by norm_num))]
    rfl
  · rw [basic_line P w len 10 44 (by norm_num) hlen (by norm_num),
      ← erase_time_le P _ _ (bits_lt (rd w 9) 31 30 (by norm_num) (by norm_num))
        (bits_lt (rd w 9) 29 25 (by norm_num) (by norm_num))]
    rfl


/-! ## Input buffer -/

theorem le32_lt (b0 b1 b2 b3 : Nat) : le32 b0 b1 b2 b3 < 2 ^ 32 := by
  unfold le32
  omega

theorem byte_at_cons_lt (x : Nat) (l : List Nat) (k : Nat) (hk : k < 4) :
    byte_at (x :: l) k = x % 2 ^ 32 / 256 ^ k % 256 := by
  unfold byte_at rd
  rw [Nat.div_eq_of_lt hk, Nat.mod_eq_of_lt hk]
  rfl

theorem byte_at_cons_ge (x : Nat) (l : List Nat) (k : Nat) :
    byte_at (x :: l) (k + 4) = byte_at l k := by
  unfold byte_at rd
  have h1 : (k + 4) / 4 = k / 4 + 1 := by omega
  have h2 : (k + 4) % 4 = k % 4 := by omega
  rw [h1, h2]
  rfl

theorem byte_at_le32 (b0 b1 b2 b3 : Nat) (l : List Nat) (k : Nat) (hk : k < 4) :
    byte_at (le32 b0 b1 b2 b3 :: l) k = [b0, b1, b2, b3].getD k 0 % 256 := by
  rw [byte_at_cons_lt _ _ _ hk, Nat.mod_eq_of_lt (le32_lt _ _ _ _)]
  unfold le32
  interval_cases k <;> simp <;> omega

/-- The `struct` view reads back the bytes that `fread` stored: byte `k` of the
buffer is byte `k` of the stream. -/
theorem byte_at_pack_words (input : List Nat) : ∀ k, k < input.length →
    byte_at (pack_words input) k = input.getD k 0 % 256 := by
  induction input using pack_words.induct with
  | case1 => intro k hk; simp at hk
  | case2 b0 =>
    intro k hk
    have hk' : k < 4 := by simp at hk; omega
    rw [pack_words, byte_at_le32 _ _ _ _ _ _ hk']
    simp at hk
    subst hk; rfl
  | case3 b0 b1 =>
    intro k hk
    have hk' : k < 2 := by simpa using hk
    rw [pack_words, byte_at_le32 _ _ _ _ _ _ (by omega)]
    interval_cases k <;> rfl
  | case4 b0 b1 b2 =>
    intro k hk
    have hk' : k < 3 := by simpa using hk
    rw [pack_words, byte_at_le32 _ _ _ _ _ _ (by omega)]
    interval_cases k <;> rfl
  | case5 b0 b1 b2 b3 rest ih =>
    intro k hk
    rw [pack_words]
    by_cases hk4 : k < 4
    · rw [byte_at_le32 _ _ _ _ _ _ hk4]
      interval_cases k <;> rfl
    · obtain ⟨j, rfl⟩ : ∃ j, k = j + 4 := ⟨k - 4, by omega⟩
      rw [byte_at_cons_ge, ih j (by simpa using hk)]
      rfl

theorem pack_words_lt (input : List Nat) : ∀ x ∈ pack_words input, x < 2 ^ 32 := by
  induction input using pack_words.induct with
  | case1 => intro x hx; simp [pack_words] at hx
  | case2 b0 => intro x hx; simp only [pack_words, List.mem_singleton] at hx; subst hx; exact le32_lt _ _ _ _
  | case3 b0 b1 => intro x hx; simp only [pack_words, List.mem_singleton] at hx; subst hx; exact le32_lt _ _ _ _
  | case4 b0 b1 b2 => intro x hx; simp only [pack_words, List.mem_singleton] at hx; subst hx; exact le32_lt _ _ _ _
  | case5 b0 b1 b2 b3 rest ih =>
    intro x hx
    rw [pack_words, List.mem_cons] at hx
    rcases hx with rfl | hx
    · exact le32_lt _ _ _ _
    · exact ih x hx

theorem pack_words_length (input : List Nat) :
    (pack_words input).length = (input.length + 3) / 4 := by
  induction input using pack_words.induct with
  | case1 => rfl
  | case2 b0 => simp [pack_words]
  | case3 b0 b1 => simp [pack_words]
  | case4 b0 b1 b2 => simp [pack_words]
  | case5 b0 b1 b2 b3 rest ih =>
    rw [pack_words, List.length_cons, ih]
    simp only [List.length_cons]
    omega

/-! ## Byte order -/

theorem bswap_32_lt (x : Nat) : bswap_32 x < 2 ^ 32 := by
  unfold bswap_32
  omega

theorem bswap_32_mod (x : Nat) : bswap_32 (x % 2 ^ 32) = bswap_32 x := by
  unfold bswap_32
  omega

theorem bswap_32_bytes (b0 b1 b2 b3 : Nat) (h0 : b0 < 256) (h1 : b1 < 256) (h2 : b2 < 256)
    (h3 : b3 < 256) :
    bswap_32 (b0 + b1 * 256 + b2 * 65536 + b3 * 16777216) =
      b3 + b2 * 256 + b1 * 65536 + b0 * 16777216 := by
  unfold bswap_32
  norm_num
  omega

theorem bswap_32_bswap_32 (x : Nat) (hx : x < 2 ^ 32) : bswap_32 (bswap_32 x) = x := by
  have hx' : x = x % 256 + x / 256 % 256 * 256 + x / 65536 % 256 * 65536
      + x / 16777216 * 16777216 := by omega
  have h3 : x / 16777216 < 256 := by omega
  rw [hx', bswap_32_bytes _ _ _ _ (Nat.mod_lt _ (by norm_num)) (Nat.mod_lt _ (by norm_num))
    (Nat.mod_lt _ (by norm_num)) h3,
    bswap_32_bytes _ _ _ _ h3 (Nat.mod_lt _ (by norm_num)) (Nat.mod_lt _ (by norm_num))
    (Nat.mod_lt _ (by norm_num))]

theorem swap_words_succ (buf : List Nat) (n : Nat) :
    swap_words buf (n + 1) = (swap_words buf n).set n (bswap_32 (rd (swap_words buf n) n)) := by
  unfold swap_words
  rw [List.range_succ, List.foldl_append]
  rfl

theorem swap_words_length (buf : List Nat) (n : Nat) : (swap_words buf n).length = buf.length := by
  induction n with
  | zero => rfl
  | succ n ih => rw [swap_words_succ, List.length_set, ih]

theorem swap_words_getElem? (buf : List Nat) (n : Nat) : ∀ k,
    (swap_words buf n)[k]? = if k < n then buf[k]?.map bswap_32 else buf[k]? := by
  induction n with
  | zero => intro k; simp [swap_words]
  | succ n ih =>
    intro k
    have hn : rd (swap_words buf n) n = buf.getD n 0 % 2 ^ 32 := by
      unfold rd
      rw [List.getD_eq_getElem?_getD, List.getD_eq_getElem?_getD, ih n]
      simp
    rw [swap_words_succ, List.getElem?_set, swap_words_length, hn, bswap_32_mod]
    by_cases hkn : n = k
    · subst hkn
      by_cases hl : n < buf.length
      · simp [hl, List.getD_eq_getElem?_getD, List.getElem?_eq_getElem hl]
      · simp [hl, List.getElem?_eq_none (not_lt.mp hl)]
    · rw [if_neg hkn, ih k]
      have hiff : (k < n + 1) ↔ (k < n) := by omega
      simp only [hiff]

theorem swap_words_map (B : List Nat) (hB : ∀ x ∈ B, x < 2 ^ 32) :
    swap_words (B.map bswap_32) B.length = B := by
  apply List.ext_getElem?
  intro k
  rw [swap_words_getElem?]
  by_cases hk : k < B.length
  · rw [if_pos hk, List.getElem?_map, List.getElem?_eq_getElem hk]
    simp only [Option.map_some']
    rw [bswap_32_bswap_32 _ (hB _ (List.getElem_mem _))]
  · rw [if_neg hk, List.getElem?_map, List.getElem?_eq_none (not_lt.mp hk)]
    rfl

/-- C6. Byte-order normalisation is a round trip. Let `B` be a buffer of whole
32-bit words (its length in bytes is `4 * B.length`) whose first word is the
signature `0x50444653`. The copy of `B` with every word byte-swapped starts
with `0x53464450`, and normalising it yields `B` again, with a matching
signature; normalising `B` itself leaves it unchanged, so normalising twice
is normalising once. -/
theorem C6_normalise_round_trip (B : List Nat) (hB : ∀ x ∈ B, x < 2 ^ 32)
    (h0 : B.head? = some SFDP_SIGNATURE) :
    hdr_signature (B.map bswap_32) = 0x53464450 ∧
    normalise (B.map bswap_32) (4 * B.length) = B ∧
    hdr_signature (normalise (B.map bswap_32) (4 * B.length)) = SFDP_SIGNATURE ∧
    normalise B (4 * B.length) = B ∧
    normalise (normalise B (4 * B.length)) (4 * B.length) = normalise B (4 * B.length) := by
  obtain ⟨t, rfl⟩ : ∃ t, B = SFDP_SIGNATURE :: t := by
    cases B with
    | nil => simp at h0
    | cons a t => exact ⟨t, by simpa using h0⟩
  have hs : hdr_signature ((SFDP_SIGNATURE :: t).map bswap_32) = 0x53464450 := rfl
  have hn : normalise (SFDP_SIGNATURE :: t) (4 * (SFDP_SIGNATURE :: t).length)
      = SFDP_SIGNATURE :: t := by
    have hrd : rd (SFDP_SIGNATURE :: t) 0 = SFDP_SIGNATURE := rfl
    have hne : ¬ rd (SFDP_SIGNATURE :: t) 0 = bswap_32 SFDP_SIGNATURE := by
      rw [hrd]; decide
    unfold normalise
    rw [if_neg hne]
  have hsw : normalise ((SFDP_SIGNATURE :: t).map bswap_32) (4 * (SFDP_SIGNATURE :: t).length)
      = SFDP_SIGNATURE :: t := by
    have heq : rd ((SFDP_SIGNATURE :: t).map bswap_32) 0 = bswap_32 SFDP_SIGNATURE := rfl
    unfold normalise
    rw [if_pos heq, Nat.mul_div_cancel_left _ (by norm_num : 0 < 4)]
    exact swap_words_map _ hB
  refine ⟨hs, hsw, ?_, hn, ?_⟩
  · rw [hsw]; rfl
  · rw [hn, hn]

/-- Instance of C6 for a three-word buffer. -/
theorem C6_normalise_round_trip_witness :
    hdr_signature ([0x50444653, 0x00000100, 0xff010000].map bswap_32) = 0x53464450 ∧
    normalise ([0x50444653, 0x00000100, 0xff010000].map bswap_32) (4 * 3) =
      [0x50444653, 0x00000100, 0xff010000] ∧
    hdr_signature (normalise ([0x50444653, 0x00000100, 0xff010000].map bswap_32) (4 * 3)) =
      SFDP_SIGNATURE ∧
    normalise [0x50444653, 0x00000100, 0xff010000] (4 * 3) =
      [0x50444653, 0x00000100, 0xff010000] ∧
    normalise (normalise [0x50444653, 0x00000100, 0xff010000] (4 * 3)) (4 * 3) =
      normalise [0x50444653, 0x00000100, 0xff010000] (4 * 3) :=
  C6_normalise_round_trip [0x50444653, 0x00000100, 0xff010000] (by decide) rfl

/-! ## Exit status -/

theorem nread_eq (input : List Nat) : nread input = min input.length 16384 := rfl

theorem normalise_signature (buf : List Nat) (sz : Nat) (hsz : 4 ≤ sz) :
    hdr_signature (normalise buf sz) = SFDP_SIGNATURE ↔
      (rd buf 0 = SFDP_SIGNATURE ∨ rd buf 0 = bswap_32 SFDP_SIGNATURE) := by
  unfold normalise hdr_signature
  by_cases h : rd buf 0 = bswap_32 SFDP_SIGNATURE
  · rw [if_pos h]
    have hpos : 0 < sz / 4 := by omega
    have hrd : rd (swap_words buf (sz / 4)) 0 = bswap_32 (rd buf 0) := by
      unfold rd
      rw [List.getD_eq_getElem?_getD, List.getD_eq_getElem?_getD, swap_words_getElem?,
        if_pos hpos, bswap_32_mod]
      rcases hb : buf[0]? with _ | x
      · rfl
      · exact Nat.mod_eq_of_lt (bswap_32_lt x)
    rw [hrd, h]
    constructor
    · intro _; exact Or.inr rfl
    · intro _; rfl
  · rw [if_neg h]
    constructor
    · intro h'; exact Or.inl h'
    · intro h'; exact h'.resolve_right h

theorem main_short (P : Platform) (input : List Nat) (h : nread input < 8) :
    main P input = some ⟨1, [], [Diag.too_short]⟩ := by
  unfold main
  exact if_pos h

theorem main_bad_signature (P : Platform) (input : List Nat) (h : ¬ nread input < 8)
    (hs : hdr_signature (parsed input) ≠ SFDP_SIGNATURE) :
    main P input = some ⟨2, [], [Diag.bad_signature (hdr_signature (parsed input))]⟩ := by
  unfold main
  exact (if_neg h).trans (if_pos hs)

theorem main_accepted (P : Platform) (input : List Nat) (h : ¬ nread input < 8)
    (hs : hdr_signature (parsed input) = SFDP_SIGNATURE) :
    main P input =
      (dir_walk P (parsed input) (nread input) (hdr_nph (parsed input) + 1) 0).map
        (fun walk => ⟨0, header_block (parsed input) (nread input) ++ walk.1, walk.2⟩) := by
  unfold main
  refine (if_neg h).trans ((if_neg (not_not.mpr hs)).trans ?_)
  show (match dir_walk P (parsed input) (nread input) (hdr_nph (parsed input) + 1) 0 with
    | none => none
    | some walk =>
      some (⟨0, header_block (parsed input) (nread input) ++ walk.1, walk.2⟩ : Run)) = _
  cases dir_walk P (parsed input) (nread input) (hdr_nph (parsed input) + 1) 0 <;> rfl

/-! ## Directory walk -/

theorem byte_at_lt (buf : List Nat) (k : Nat) : byte_at buf k < 256 :=
  Nat.mod_lt _ (by norm_num)

theorem param_off_lt (buf : List Nat) (i : Nat) : param_off buf i < 2 ^ 24 := by
  unfold param_off param_ptr
  have h0 := byte_at_lt buf (param_at i + 4 + 0)
  have h1 := byte_at_lt buf (param_at i + 4 + 1)
  have h2 := byte_at_lt buf (param_at i + 4 + 2)
  refine Nat.or_lt_two_pow (Nat.or_lt_two_pow ?_ ?_) ?_
  · rw [Nat.shiftLeft_eq]; omega
  · rw [Nat.shiftLeft_eq]; omega
  · omega

theorem find_handler_first (P : Platform) (id : Nat) :
    find_handler P 0 id (handlers P).length =
      some (if id = 0xff00 then ⟨0xff00, "Basic flash parameter table", sfdp_basic P⟩
        else sfdp_unknown_param) := by
  by_cases h : id = 0xff00
  · rw [if_pos h]
    show (if id = 0xff00 then _ else _) = _
    rw [if_pos h]
  · rw [if_neg h]
    show (if id = 0xff00 then _ else _) = _
    rw [if_neg h]
    rfl

theorem find_handler_past (P : Platform) (i id : Nat) (hi : 1 ≤ i) :
    find_handler P i id (handlers P).length = none := by
  obtain ⟨j, rfl⟩ : ∃ j, i = j + 1 := ⟨i - 1, by omega⟩
  rfl

theorem param_entry_first (P : Platform) (buf : List Nat) (sz : Nat) :
    param_entry P buf sz 0 =
      some (param_body
        (if param_id buf 0 = 0xff00 then ⟨0xff00, "Basic flash parameter table", sfdp_basic P⟩
          else sfdp_unknown_param) buf sz 0) := by
  unfold param_entry param_handler
  rw [find_handler_first]

theorem param_entry_past (P : Platform) (buf : List Nat) (sz i : Nat) (hi : 1 ≤ i) :
    param_entry P buf sz i = none := by
  unfold param_entry param_handler
  rw [find_handler_past P i _ hi]

theorem dir_walk_single (P : Platform) (buf : List Nat) (sz : Nat) :
    dir_walk P buf sz 1 0 =
      some (param_body
        (if param_id buf 0 = 0xff00 then ⟨0xff00, "Basic flash parameter table", sfdp_basic P⟩
          else sfdp_unknown_param) buf sz 0) := by
  show (match param_entry P buf sz 0 with
    | none => none
    | some e =>
      match dir_walk P buf sz 0 (0 + 1) with
      | none => none
      | some rest => some (e.1 ++ rest.1, e.2 ++ rest.2)) = _
  rw [param_entry_first]
  show some (_ ++ [], _ ++ []) = _
  rw [List.append_nil, List.append_nil]

theorem dir_walk_past (P : Platform) (buf : List Nat) (sz k : Nat) :
    dir_walk P buf sz (k + 2) 0 = none := by
  show (match param_entry P buf sz 0 with
    | none => none
    | some e =>
      match dir_walk P buf sz (k + 1) (0 + 1) with
      | none => none
      | some rest => some (e.1 ++ rest.1, e.2 ++ rest.2)) = _
  have h1 : dir_walk P buf sz (k + 1) (0 + 1) = none := by
    show (match param_entry P buf sz (0 + 1) with
      | none => none
      | some e =>
        match dir_walk P buf sz k (0 + 1 + 1) with
        | none => none
        | some rest => some (e.1 ++ rest.1, e.2 ++ rest.2)) = _
    rw [param_entry_past P buf sz (0 + 1) (Nat.le_refl 1)]
  rw [h1]
  cases param_entry P buf sz 0 <;> rfl

theorem param_body_out (h : sfdp_param_handler) (buf : List Nat) (sz i : Nat) :
    (param_body h buf sz i).1 =
      param_head h buf i ++
        (if param_off buf i % 4 = 0 ∧ param_off buf i + 4 * param_len buf i ≤ sz then
          (h.dumper (buf.drop (param_off buf i / 4)) (param_len buf i)).1
        else []) := by
  unfold param_body
  by_cases ha : param_off buf i % 4 = 0
  · by_cases hb : param_off buf i + param_len buf i * 4 ≤ sz
    · have hb' : param_off buf i + 4 * param_len buf i ≤ sz := by omega
      simp only [ha, hb, hb', ne_eq, not_true_eq_false, if_false, if_true, and_self]
    · have hb' : ¬ param_off buf i + 4 * param_len buf i ≤ sz := by omega
      simp only [ha, hb, hb', ne_eq, not_true_eq_false, if_false, and_false, List.append_nil]
  · simp only [ha, ne_eq, not_false_eq_true, if_true, false_and, if_false, List.append_nil]

theorem param_body_err (h : sfdp_param_handler) (buf : List Nat) (sz i : Nat) :
    (param_body h buf sz i).2 =
      (if param_off buf i % 4 ≠ 0 then [Diag.unaligned (param_id buf i)]
       else if param_off buf i + 4 * param_len buf i ≤ sz then []
       else [Diag.behind (param_id buf i)]) := by
  unfold param_body
  by_cases ha : param_off buf i % 4 = 0
  · by_cases hb : param_off buf i + param_len buf i * 4 ≤ sz
    · have hb' : param_off buf i + 4 * param_len buf i ≤ sz := by omega
      simp only [ha, hb, hb', ne_eq, not_true_eq_false, if_false, if_true]
    · have hb' : ¬ param_off buf i + 4 * param_len buf i ≤ sz := by omega
      simp only [ha, hb, hb', ne_eq, not_true_eq_false, if_false]
  · simp only [ha, ne_eq, not_false_eq_true, if_true]

theorem main_single (P : Platform) (input : List Nat) (h : ¬ nread input < 8)
    (hs : hdr_signature (parsed input) = SFDP_SIGNATURE) (hn : hdr_nph (parsed input) = 0) :
    main P input =
      some ⟨0, header_block (parsed input) (nread input) ++
          (param_body
            (if param_id (parsed input) 0 = 0xff00 then
              ⟨0xff00, "Basic flash parameter table", sfdp_basic P⟩
             else sfdp_unknown_param) (parsed input) (nread input) 0).1,
        (param_body
            (if param_id (parsed input) 0 = 0xff00 then
              ⟨0xff00, "Basic flash parameter table", sfdp_basic P⟩
             else sfdp_unknown_param) (parsed input) (nread input) 0).2⟩ := by
  rw [main_accepted P input h hs, hn, dir_walk_single]
  rfl

theorem main_past (P : Platform) (input : List Nat) (h : ¬ nread input < 8)
    (hs : hdr_signature (parsed input) = SFDP_SIGNATURE) (hn : 1 ≤ hdr_nph (parsed input)) :
    main P input = none := by
  obtain ⟨k, hk⟩ : ∃ k, hdr_nph (parsed input) = k + 1 :=
    ⟨hdr_nph (parsed input) - 1, by omega⟩
  rw [main_accepted P input h hs, hk, dir_walk_past]
  rfl

/-- C3, the code evaluated. A run reads `min (length of the input) 16384` bytes.
It ends with status 1 when fewer than 8 bytes were read, and with status 2 when
at least 8 were read and the first word of the buffer is neither `0x50444653`
nor its byte-swapped form `0x53464450`; a run that ends with a non-zero status
prints nothing on standard output. In every other case the run ends with
status 0 if the header announces one entry (`nph = 0`); if it announces more
(`nph ≥ 1`) the handler search of entry 1 reads `handlers[1]`, outside the
one-entry table, and the run has no defined status. `mixed_dump`, 36 bytes
with the signature `0x50444653` and `nph = 2`, is such an input. -/
theorem C3_status_zero_only_for_single_entry :
    (∀ (P : Platform) (input : List Nat),
      nread input = min input.length 16384 ∧
      (main P input).map Run.status =
        (if nread input < 8 then some 1
         else if rd (fread input).1 0 ≠ 0x50444653 ∧ rd (fread input).1 0 ≠ 0x53464450 then
           some 2
         else if hdr_nph (parsed input) = 0 then some 0
         else none) ∧
      (∀ r : Run, main P input = some r → r.status ≠ 0 → r.out = [])) ∧
    nread mixed_dump = 36 ∧
    rd (fread mixed_dump).1 0 = 0x50444653 ∧
    hdr_nph (parsed mixed_dump) = 2 ∧
    (∀ P : Platform, main P mixed_dump = none) ∧
    (∀ P : Platform, (main P mixed_dump).map Run.status ≠ some 0) := by
  refine ⟨fun P input => ⟨rfl, ?_⟩, rfl, rfl, rfl, fun P => rfl, fun P => ?_⟩
  · by_cases h : nread input < 8
    · rw [main_short P input h, if_pos h]
      refine ⟨rfl, fun r hr hne => ?_⟩
      cases hr
      rfl
    · rw [if_neg h]
      have hiff := normalise_signature (fread input).1 (nread input) (by omega)
      by_cases hs : hdr_signature (parsed input) = SFDP_SIGNATURE
      · have h' := hiff.mp hs
        have hnot : ¬ (rd (fread input).1 0 ≠ 0x50444653 ∧ rd (fread input).1 0 ≠ 0x53464450) := by
          rintro ⟨h1, h2⟩
          rcases h' with h' | h'
          · exact h1 h'
          · exact h2 h'
        rw [if_neg hnot]
        by_cases hn : hdr_nph (parsed input) = 0
        · rw [main_single P input h hs hn, if_pos hn]
          refine ⟨rfl, fun r hr hne => ?_⟩
          cases hr
          exact absurd rfl hne
        · rw [main_past P input h hs (by omega), if_neg hn]
          refine ⟨rfl, fun r hr => ?_⟩
          cases hr
      · have hyes : rd (fread input).1 0 ≠ 0x50444653 ∧ rd (fread input).1 0 ≠ 0x53464450 := by
          constructor
          · intro h1; exact hs (hiff.mpr (Or.inl h1))
          · intro h2; exact hs (hiff.mpr (Or.inr h2))
        rw [main_bad_signature P input h hs, if_pos hyes]
        refine ⟨rfl, fun r hr hne => ?_⟩
        cases hr
        rfl
  · have hm : main P mixed_dump = none := rfl
    rw [hm]
    intro hc
    cases hc

/-- C4, the code evaluated. An accepted input announces `nph + 1` entries,
between 1 and 256. When `nph = 0` the output is the header block followed by
the one block of entry 0, which starts with the title `Parameter 0` and the
five lines carrying the ID, the major and minor revision, the byte offset and
the length in bytes `4 * len`, whatever the alignment or bounds of the entry.
When `nph ≥ 1` the handler search of entry 1 reads `handlers[1]`, outside the
one-entry table: the run has no defined output, and the blocks of the entries
`1, ..., nph` are not produced. `mixed_dump` announces three entries, and the
run on it has no result. -/
theorem C4_blocks_end_after_first_entry :
    (∀ (P : Platform) (input : List Nat),
      ¬ nread input < 8 → hdr_signature (parsed input) = SFDP_SIGNATURE →
      1 ≤ hdr_nph (parsed input) + 1 ∧ hdr_nph (parsed input) + 1 ≤ 256 ∧
      (hdr_nph (parsed input) = 0 →
        ∃ data : List Out,
          (main P input).map Run.out =
            some (header_block (parsed input) (nread input) ++
              ([ Out.title 0 (if param_id (parsed input) 0 = 0xff00 then
                    "Basic flash parameter table" else "Unknown parameter"),
                 p_hex_val (param_id (parsed input) 0) "Major" none,
                 p_dec_val (param_major (parsed input) 0) "Major" none,
                 p_dec_val (param_minor (parsed input) 0) "Minor" none,
                 p_dec_val (param_off (parsed input) 0) "Offset"
                   (if param_off (parsed input) 0 % 4 ≠ 0 then some "Invalid alignment"
                    else none),
                 p_dec_val (param_len (parsed input) 0 * 4) "Length" none ] ++ data))) ∧
      (1 ≤ hdr_nph (parsed input) →
        (∀ i, 1 ≤ i → param_entry P (parsed input) (nread input) i = none) ∧
        main P input = none)) ∧
    ¬ nread mixed_dump < 8 ∧
    hdr_signature (parsed mixed_dump) = SFDP_SIGNATURE ∧
    hdr_nph (parsed mixed_dump) + 1 = 3 ∧
    (∀ P : Platform, main P mixed_dump = none) ∧
    (∀ P : Platform, (main P unaligned_dump).map Run.out =
      some (header_block (parsed unaligned_dump) 24 ++
        [ Out.title 0 "Basic flash parameter table",
          p_hex_val 0xff00 "Major" none,
          p_dec_val 1 "Major" none,
          p_dec_val 0 "Minor" none,
          p_dec_val 5 "Offset" (some "Invalid alignment"),
          p_dec_val 4 "Length" none ])) := by
  refine ⟨fun P input h hs => ⟨Nat.le_add_left 1 _, Nat.succ_le_of_lt (byte_at_lt _ 6),
    fun hn => ?_, fun hn => ⟨fun i hi => param_entry_past P _ _ i hi, main_past P input h hs hn⟩⟩,
    by decide, rfl, rfl, fun P => rfl, fun P => rfl⟩
  rw [main_single P input h hs hn]
  show ∃ data : List Out, some (_ ++ (param_body _ _ _ 0).1) = _
  rw [param_body_out]
  by_cases hid : param_id (parsed input) 0 = 0xff00
  · rw [if_pos hid, if_pos hid]
    exact ⟨_, rfl⟩
  · rw [if_neg hid, if_neg hid]
    exact ⟨_, rfl⟩

/-- C1, the code evaluated. For entry 0 the loop body does what the claim says:
on an accepted input with `nph = 0` the handler search yields a handler `h`,
and the output is the header block and the six head items of entry 0, followed
by what `h` prints for the words from index `off / 4` on and the length `len`
if `off` is a multiple of 4 and `off + 4 * len ≤ sz`, and by nothing
otherwise; the diagnostic is the one of the check that failed. The Offset line
carries "Invalid alignment" exactly when `off` is not a multiple of 4, and
`off` is a 24-bit value. For every entry `i ≥ 1` the handler search reads
`handlers[i]`, outside the one-entry table, so the loop body has no defined
outcome and neither has the run. Entry 2 of `mixed_dump` has the ID 0xFF00,
offset 32 and length 1: it is aligned and inside the 36 bytes read, and no
handler is invoked on it. -/
theorem C1_dispatch_first_entry_only :
    (∀ (P : Platform) (input : List Nat),
      ¬ nread input < 8 → hdr_signature (parsed input) = SFDP_SIGNATURE →
      (hdr_nph (parsed input) = 0 →
        ∃ h : sfdp_param_handler, param_handler P (parsed input) 0 = some h ∧
          main P input = some
            ⟨0,
             header_block (parsed input) (nread input)
              ++ (param_head h (parsed input) 0
                ++ (if param_off (parsed input) 0 % 4 = 0 ∧
                      param_off (parsed input) 0 + 4 * param_len (parsed input) 0 ≤ nread input
                    then
                      (h.dumper ((parsed input).drop (param_off (parsed input) 0 / 4))
                        (param_len (parsed input) 0)).1
                    else [])),
             if param_off (parsed input) 0 % 4 ≠ 0 then
               [Diag.unaligned (param_id (parsed input) 0)]
             else if param_off (parsed input) 0 + 4 * param_len (parsed input) 0 ≤ nread input
               then []
             else [Diag.behind (param_id (parsed input) 0)]⟩) ∧
      (∀ i, 1 ≤ i → param_entry P (parsed input) (nread input) i = none) ∧
      (1 ≤ hdr_nph (parsed input) → main P input = none)) ∧
    (∀ (h : sfdp_param_handler) (buf : List Nat) (i : Nat),
      (param_head h buf i)[4]? =
        some (p_dec_val (param_off buf i) "Offset"
          (if param_off buf i % 4 ≠ 0 then some "Invalid alignment" else none)) ∧
      (param_head h buf i).length = 6 ∧
      param_off buf i < 2 ^ 24) ∧
    (¬ nread mixed_dump < 8 ∧
      hdr_signature (parsed mixed_dump) = SFDP_SIGNATURE ∧
      hdr_nph (parsed mixed_dump) = 2 ∧
      param_id (parsed mixed_dump) 2 = 0xff00 ∧
      param_off (parsed mixed_dump) 2 = 32 ∧
      param_len (parsed mixed_dump) 2 = 1 ∧
      param_off (parsed mixed_dump) 2 % 4 = 0 ∧
      param_off (parsed mixed_dump) 2 + 4 * param_len (parsed mixed_dump) 2 ≤
        nread mixed_dump ∧
      (∀ P : Platform, param_entry P (parsed mixed_dump) (nread mixed_dump) 2 = none) ∧
      (∀ P : Platform, main P mixed_dump = none)) ∧
    (param_off (parsed unaligned_dump) 0 = 5 ∧
      ∀ P : Platform, main P unaligned_dump = some
        ⟨0,
         header_block (parsed unaligned_dump) 24 ++
          [ Out.title 0 "Basic flash parameter table",
            p_hex_val 0xff00 "Major" none,
            p_dec_val 1 "Major" none,
            p_dec_val 0 "Minor" none,
            p_dec_val 5 "Offset" (some "Invalid alignment"),
            p_dec_val 4 "Length" none ],
         [Diag.unaligned 0xff00]⟩) := by
  refine ⟨fun P input h hs => ⟨fun hn => ?_, fun i hi => param_entry_past P _ _ i hi,
      fun hn => main_past P input h hs hn⟩,
    fun h buf i => ⟨rfl, rfl, param_off_lt _ _⟩,
    ⟨by decide, rfl, rfl, rfl, rfl, rfl, rfl, by decide, fun P => rfl, fun P => rfl⟩,
    ⟨rfl, fun P => rfl⟩⟩
  refine ⟨_, find_handler_first P (param_id (parsed input) 0), ?_⟩
  rw [main_single P input h hs hn, param_body_out, param_body_err]

/-- C2, the code evaluated. The handler search compares the entry ID with
`handlers[i]`, `i` being the directory index. For `i = 0` this is the lookup of
the ID in the table. For `i ≥ 1` the table is not consulted: the search reads
`handlers[i]` outside the one-entry table and has no defined result, whatever
the ID. In `two_basic_dump`, entry 1 has the ID 0xFF00; its handler search
does not yield the Basic-table handler, and the run has no defined result. -/
theorem C2_handler_search_uses_entry_index :
    (∀ (P : Platform) (id : Nat),
      find_handler P 0 id (handlers P).length =
        some (if id = 0xff00 then ⟨0xff00, "Basic flash parameter table", sfdp_basic P⟩
          else sfdp_unknown_param)) ∧
    (∀ (P : Platform) (i id : Nat), 1 ≤ i →
      find_handler P i id (handlers P).length = none) ∧
    param_id (parsed two_basic_dump) 1 = 0xff00 ∧
    (∀ P : Platform, param_handler P (parsed two_basic_dump) 0 =
      some ⟨0xff00, "Basic flash parameter table", sfdp_basic P⟩) ∧
    (∀ P : Platform, param_handler P (parsed two_basic_dump) 1 = none) ∧
    (∀ P : Platform, main P two_basic_dump = none) :=
  ⟨find_handler_first, find_handler_past, rfl, fun _ => rfl, fun _ => rfl, fun _ => rfl⟩


/-! ## End-to-end run -/

/-- C11. The run on `minimal_dump` (header with signature 0x50444653, major 1,
minor 0, nph 0; one entry with ID 0xFF00, length 1 and offset 20; the word
0x00000003 at byte offset 20) ends with status 0 and no diagnostic. It prints
the header block (Parameters 1, Total length 24), then one entry block titled
`Parameter 0 (Basic flash parameter table)` whose decoded lines are the
eleven lines of word 0, the first being "Erase Size" with value 3 and
description "4kB supported", and nothing else. -/
theorem C11_minimal_dump_run (P : Platform) :
    (main P minimal_dump).map Run.status = some 0 ∧
    (main P minimal_dump).map Run.err = some [] ∧
    (main P minimal_dump).map Run.out = some
      [ p_hex_val 0x50444653 "Signature" (some "Must be 0x50444653 ('S', 'F', 'D', 'P')"),
        p_dec_val 1 "Major" none,
        p_dec_val 0 "Minor" none,
        p_dec_val 1 "Parameters" none,
        p_dec_val 24 "Total length" none,
        Out.title 0 "Basic flash parameter table",
        p_hex_val 0xff00 "Major" none,
        p_dec_val 1 "Major" none,
        p_dec_val 0 "Minor" none,
        p_dec_val 20 "Offset" none,
        p_dec_val 4 "Length" none,
        p_hex_val 3 "Erase Size" (some "4kB supported"),
        p_hex_val 0 "Write Granularity" (some "Single byte or less than 64 bytes"),
        p_hex_val 0 "Volatile Status Register Block Protect Bits" (some "non-volatile"),
        p_hex_val 0 "Write Enable Instruction for Writing to Volatile Status Register"
          (some "50h"),
        p_hex_val 0 "4kB Erase Instruction" none,
        p_hex_val 0 "1-1-2 Fast Read" (some "not supported"),
        p_hex_val 0 "Address Bytes" (some "3-byte addressing"),
        p_hex_val 0 "Double transfer rate (DTR) Clocking" (some "not supported"),
        p_hex_val 0 "1-2-2 Fast Read" (some "not supported"),
        p_hex_val 0 "1-4-4 Fast Read" (some "not supported"),
        p_hex_val 0 "1-1-4 Fast Read" (some "not supported") ] ∧
    (main P minimal_dump).map (fun r => r.out.drop 11) = some (basic_word0 [0x00000003]) ∧
    (Out.title 0 "Basic flash parameter table").render =
      "\n\nParameter 0 (Basic flash parameter table)\n" ∧
    (p_hex_val 3 "Erase Size" (some "4kB supported")).render =
      "Erase Size:                                              3 (4kB supported)\n" :=
  ⟨rfl, rfl, rfl, rfl, rfl, rfl⟩

/-! ## Erase types of words 7 and 8 -/

theorem shl1_eq (P : Platform) (n : Nat) (h : n ≤ 30) : shl1 P n = 2 ^ n := by
  unfold shl1
  rw [if_pos h]

/-- C12, counterexample. With word 7 and word 8 both `0x00000000` the size lines
of Erase Type 1 and Erase Type 3 carry the same value 1 but not the same
description: "in bytes" for Type 1, "not supported" for Type 3. -/
theorem C12_type3_label_differs :
    (sfdp_basic host_platform [0, 0, 0, 0, 0, 0, 0, 0, 0] 9).1[32]? =
      some (p_dec_val 1 "Erase Type 1 Size" (some "in bytes")) ∧
    (sfdp_basic host_platform [0, 0, 0, 0, 0, 0, 0, 0, 0] 9).1[36]? =
      some (p_dec_val 1 "Erase Type 3 Size" (some "not supported")) ∧
    ((sfdp_basic host_platform [0, 0, 0, 0, 0, 0, 0, 0, 0] 9).1[32]?).map Out.description ≠
      ((sfdp_basic host_platform [0, 0, 0, 0, 0, 0, 0, 0, 0] 9).1[36]?).map Out.description := by
  refine ⟨rfl, rfl, ?_⟩
  decide

/-- C12, amended. For a word `x` whose fields `bits[7:0]` and `bits[23:16]` are at
most 30, decoded as word 7 of one table and as word 8 of another: the lines of
Erase Type 3 and 4 carry the same values as those of Erase Type 1 and 2, sizes
`2^bits[7:0]` and `2^bits[23:16]`, instructions `bits[15:8]` and `bits[31:24]`.
The sizes of Type 2, 3 and 4 are labelled "not supported" exactly when their
exponent field is 0 and "in bytes" otherwise; the size of Type 1 is always
labelled "in bytes". -/
theorem C12_word8_layout (P : Platform) (w w' : List Nat) (len len' x : Nat)
    (hlen : 8 ≤ len) (hlen' : 9 ≤ len') (h7 : rd w 7 = x) (h8 : rd w' 8 = x)
    (he1 : bits x 7 0 ≤ 30) (he2 : bits x 23 16 ≤ 30) :
    (sfdp_basic P w len).1[32]? =
      some (p_dec_val (2 ^ bits x 7 0) "Erase Type 1 Size" (some "in bytes")) ∧
    (sfdp_basic P w len).1[33]? =
      some (p_hex_val (bits x 15 8) "Erase Type 1 Instruction" none) ∧
    (sfdp_basic P w len).1[34]? =
      some (p_dec_val (2 ^ bits x 23 16) "Erase Type 2 Size"
        (some (if bits x 23 16 ≠ 0 then "in bytes" else "not supported"))) ∧
    (sfdp_basic P w len).1[35]? =
      some (p_hex_val (bits x 31 24) "Erase Type 2 Instruction" none) ∧
    (sfdp_basic P w' len').1[36]? =
      some (p_dec_val (2 ^ bits x 7 0) "Erase Type 3 Size"
        (some (if bits x 7 0 ≠ 0 then "in bytes" else "not supported"))) ∧
    (sfdp_basic P w' len').1[37]? =
      some (p_hex_val (bits x 15 8) "Erase Type 3 Instruction" none) ∧
    (sfdp_basic P w' len').1[38]? =
      some (p_dec_val (2 ^ bits x 23 16) "Erase Type 4 Size"
        (some (if bits x 23 16 ≠ 0 then "in bytes" else "not supported"))) ∧
    (sfdp_basic P w' len').1[39]? =
      some (p_hex_val (bits x 31 24) "Erase Type 4 Instruction" none) := by
  have e1 := shl1_eq P _ he1
  have e2 := shl1_eq P _ he2
  refine ⟨?_, ?_, ?_, ?_, ?_, ?_, ?_, ?_⟩
  · rw [basic_line P w len 8 32 (by norm_num) hlen (by norm_num), ← e1, ← h7]; rfl
  · rw [basic_line P w len 8 33 (by norm_num) hlen (by norm_num), ← h7]; rfl
  · rw [basic_line P w len 8 34 (by norm_num) hlen (by norm_num), ← e2, ← h7]; rfl
  · rw [basic_line P w len 8 35 (by norm_num) hlen (by norm_num), ← h7]; rfl
  · rw [basic_line P w' len' 9 36 (by norm_num) hlen' (by norm_num), ← e1, ← h8]; rfl
  · rw [basic_line P w' len' 9 37 (by norm_num) hlen' (by norm_num), ← h8]; rfl
  · rw [basic_line P w' len' 9 38 (by norm_num) hlen' (by norm_num), ← e2, ← h8]; rfl
  · rw [basic_line P w' len' 9 39 (by norm_num) hlen' (by norm_num), ← h8]; rfl

/-- Instance of C12 (amended) for the word `0xD810200C` as word 7 and word 8. -/
theorem C12_word8_layout_witness :
    (sfdp_basic host_platform [0, 0, 0, 0, 0, 0, 0, 0xD810200C, 0xD810200C] 9).1[32]? =
      some (p_dec_val 4096 "Erase Type 1 Size" (some "in bytes")) ∧
    (sfdp_basic host_platform [0, 0, 0, 0, 0, 0, 0, 0xD810200C, 0xD810200C] 9).1[36]? =
      some (p_dec_val 4096 "Erase Type 3 Size" (some "in bytes")) ∧
    (sfdp_basic host_platform [0, 0, 0, 0, 0, 0, 0, 0xD810200C, 0xD810200C] 9).1[38]? =
      some (p_dec_val 65536 "Erase Type 4 Size" (some "in bytes")) ∧
    (sfdp_basic host_platform [0, 0, 0, 0, 0, 0, 0, 0xD810200C, 0xD810200C] 9).1[39]? =
      some (p_hex_val 0xD8 "Erase Type 4 Instruction" none) :=
  have h := C12_word8_layout host_platform [0, 0, 0, 0, 0, 0, 0, 0xD810200C, 0xD810200C]
    [0, 0, 0, 0, 0, 0, 0, 0xD810200C, 0xD810200C] 9 9 0xD810200C (by norm_num) (by norm_num)
    rfl rfl (by decide) (by decide)
  ⟨h.1.trans rfl, h.2.2.2.2.1.trans rfl, h.2.2.2.2.2.2.1.trans rfl, h.2.2.2.2.2.2.2.trans rfl⟩

/-! ## Value formatter -/

theorem spaces_length (n : Nat) : (spaces n).length = n := by
  simp [spaces, String.length]

theorem pad_left_length (width : Nat) (s : String) :
    (pad_left width s).length = max width s.length := by
  unfold pad_left
  rw [String.length_append, spaces_length]
  omega

theorem conv_u_length (val : Nat) (h : val < 2 ^ 32) : (conv_u val).length ≤ 10 :=
  Nat.repr_length val 10 (by norm_num) (lt_trans h (by norm_num))

theorem conv_x_length (val : Nat) (h : val < 2 ^ 32) : (conv_x val).length ≤ 10 := by
  unfold conv_x
  split
  · decide
  · have h8 : (Nat.toDigits 16 val).length ≤ 8 :=
      Nat.toDigitsCore_length 16 (by norm_num) (val + 1) val 8 (by norm_num at h ⊢; exact h)
        (by norm_num)
    rw [String.length_append]
    show 2 + (Nat.toDigits 16 val).length ≤ 10
    omega

theorem conv_length (hex : Bool) (val : Nat) (h : val < 2 ^ 32) : (conv hex val).length ≤ 10 := by
  unfold conv
  split
  · exact conv_x_length val h
  · exact conv_u_length val h

theorem indent_le (name : String) : p_num_val_indent name ≤ 47 := by
  unfold p_num_val_indent NAME_LEN
  split <;> omega

theorem numlen_le (val : Nat) (name : String) (hex : Bool) (h : val < 2 ^ 32) :
    p_num_val_numlen val name hex ≤ 18 := by
  have hL := conv_length hex val h
  unfold p_num_val_numlen NAME_LEN
  split <;> omega

/-- The format built for a 32-bit value has at most 19 characters: it fits the
32 bytes of `fmt` and `snprintf` does not cut it. -/
theorem p_num_val_fmt_fits (val : Nat) (name : String) (description : Option String)
    (hex : Bool) (h : val < 2 ^ 32) :
    (p_num_val_fmt val name description hex).length ≤ 19 := by
  have hi : (Nat.repr (p_num_val_indent name)).length ≤ 2 :=
    Nat.repr_length _ 2 (by norm_num) (lt_of_le_of_lt (indent_le name) (by norm_num))
  have hw : (Nat.repr (p_num_val_numlen val name hex)).length ≤ 2 :=
    Nat.repr_length _ 2 (by norm_num) (lt_of_le_of_lt (numlen_le val name hex h) (by norm_num))
  unfold p_num_val_fmt
  simp only [String.length_append]
  have h1 : "%s:%-".length = 5 := rfl
  have h2 : "s%".length = 2 := rfl
  have h3 : (if hex then "#" else "").length ≤ 1 := by cases hex <;> decide
  have h4 : (if hex then "x" else "u").length = 1 := by cases hex <;> rfl
  have h5 : (match description with
      | some _ => " (%s)"
      | none => "%s").length ≤ 5 := by
    rcases description with _ | d
    · show "%s".length ≤ 5
      decide
    · show " (%s)".length ≤ 5
      decide
  have h6 : "\n".length = 1 := rfl
  omega

theorem indent_short (name : String) (h : name.length ≤ 46) :
    p_num_val_indent name = 47 - name.length := by
  unfold p_num_val_indent NAME_LEN
  split <;> omega

theorem indent_long (name : String) (h : 47 ≤ name.length) : p_num_val_indent name = 1 := by
  unfold p_num_val_indent NAME_LEN
  split <;> omega

theorem numlen_short (val : Nat) (name : String) (hex : Bool) (h : name.length ≤ 46) :
    p_num_val_numlen val name hex = 10 := by
  unfold p_num_val_numlen NAME_LEN
  split <;> omega

theorem numlen_long (val : Nat) (name : String) (hex : Bool) (h : 47 ≤ name.length) :
    p_num_val_numlen val name hex = 55 + (conv hex val).length - name.length := by
  unfold p_num_val_numlen NAME_LEN
  split <;> omega

theorem digitChar_isDigit (d : Nat) (h : d < 10) : (Nat.digitChar d).isDigit = true := by
  interval_cases d <;> rfl

theorem toDigitsCore_isDigit (fuel : Nat) : ∀ (n : Nat) (acc : List Char),
    (∀ c ∈ acc, c.isDigit = true) → ∀ c ∈ Nat.toDigitsCore 10 fuel n acc, c.isDigit = true := by
  induction fuel with
  | zero => intro n acc hacc c hc; simpa [Nat.toDigitsCore] using hacc c hc
  | succ fuel ih =>
    intro n acc hacc c hc
    have hcons : ∀ c ∈ Nat.digitChar (n % 10) :: acc, c.isDigit = true := by
      intro c hc
      rcases List.mem_cons.mp hc with rfl | hc
      · exact digitChar_isDigit _ (Nat.mod_lt _ (by norm_num))
      · exact hacc c hc
    unfold Nat.toDigitsCore at hc
    by_cases h0 : n / 10 = 0
    · have hc' : c ∈ Nat.digitChar (n % 10) :: acc := by simpa [h0] using hc
      exact hcons c hc'
    · have hc' : c ∈ Nat.toDigitsCore 10 fuel (n / 10) (Nat.digitChar (n % 10) :: acc) := by
        simpa [h0] using hc
      exact ih _ _ hcons c hc'

theorem repr_isDigit (v : Nat) : ∀ c ∈ (Nat.repr v).data, c.isDigit = true := by
  intro c hc
  exact toDigitsCore_isDigit (v + 1) v [] (by simp) c hc

/-- C13. The line of `p_hex_val` carries the value as `0x` followed by its
hexadecimal digits when the value is at least 10, and as its decimal numeral
when it is at most 9; the line of `p_dec_val` carries the decimal numeral of
the unsigned value, which consists of decimal digits only. So 9 is printed
`9`, 10 is printed `0xa`, and `p_dec_val` prints 2147483648 and 4294967295
as such. -/
theorem C13_value_rendering (v : Nat) (name : String) (d : Option String) :
    (p_hex_val v name d).render =
      name ++ ":" ++ spaces (p_num_val_indent name)
        ++ pad_left (p_num_val_numlen v name (decide (v ≥ 10)))
            (if 10 ≤ v then "0x" ++ String.mk (Nat.toDigits 16 v) else Nat.repr v)
        ++ description_text d ++ "\n" ∧
    (p_dec_val v name d).render =
      name ++ ":" ++ spaces (p_num_val_indent name)
        ++ pad_left (p_num_val_numlen v name false) (Nat.repr v)
        ++ description_text d ++ "\n" ∧
    (∀ c ∈ (Nat.repr v).data, c.isDigit = true) ∧
    conv (decide (9 ≥ 10)) 9 = "9" ∧
    conv (decide (10 ≥ 10)) 10 = "0xa" ∧
    conv (decide (4294967295 ≥ 10)) 4294967295 = "0xffffffff" ∧
    conv false 2147483648 = "2147483648" ∧
    conv false 4294967295 = "4294967295" := by
  refine ⟨?_, rfl, repr_isDigit v, rfl, rfl, rfl, rfl, rfl⟩
  show p_num_val_text v name d (decide (v ≥ 10)) = _
  unfold p_num_val_text
  have hc : conv (decide (v ≥ 10)) v =
      if 10 ≤ v then "0x" ++ String.mk (Nat.toDigits 16 v) else Nat.repr v := by
    unfold conv conv_x conv_u
    by_cases h : 10 ≤ v
    · have h0 : v ≠ 0 := by omega
      simp [h, h0]
    · simp [h]
  rw [hc]

/-- C14. For a field name of at most 46 characters, a 32-bit value, either base
and an optional description, the line `p_num_val` prints is the name, `:`,
`47 - len(name)` blanks, the converted value right-aligned in a field of 10
characters, then ` (description)` if a description is given and nothing
otherwise, then a newline. No conversion of a 32-bit value is longer than 10
characters, so the text before the description is 58 characters long. -/
theorem C14_short_name_layout (val : Nat) (name : String) (description : Option String)
    (hex : Bool) (hname : name.length ≤ 46) (hval : val < 2 ^ 32) :
    (p_num_val val name description hex).render =
      name ++ ":" ++ spaces (47 - name.length)
        ++ (spaces (10 - (conv hex val).length) ++ conv hex val)
        ++ (match description with
            | some d => " (" ++ d ++ ")"
            | none => "")
        ++ "\n" ∧
    (conv hex val).length ≤ 10 ∧
    (name ++ ":" ++ spaces (47 - name.length)
        ++ (spaces (10 - (conv hex val).length) ++ conv hex val)).length = 58 := by
  have hL := conv_length hex val hval
  refine ⟨?_, hL, ?_⟩
  · show p_num_val_text val name description hex = _
    unfold p_num_val_text
    rw [indent_short name hname, numlen_short val name hex hname]
    rfl
  · simp only [String.length_append, spaces_length]
    have h1 : ":".length = 1 := rfl
    omega

/-- Instance of C14 for the line `Total length: 24`. -/
theorem C14_short_name_layout_witness :
    (p_num_val 24 short_name none false).render =
      short_name ++ ":" ++ spaces (47 - short_name.length)
        ++ (spaces (10 - (conv false 24).length) ++ conv false 24)
        ++ "" ++ "\n" ∧
    (conv false 24).length ≤ 10 ∧
    (short_name ++ ":" ++ spaces (47 - short_name.length)
        ++ (spaces (10 - (conv false 24).length) ++ conv false 24)).length = 58 :=
  C14_short_name_layout 24 short_name none false (by decide) (by norm_num)

/-- C15. For a field name of 47 characters or more, `p_num_val` puts exactly one
blank after the `:` and prints the value in a field whose width is
`8 + L` (`L` the length of the converted value) less the excess of the name
over 47 characters, and 0 when that would be negative; the value is printed in
full, and directly after the single blank once the name has 55 characters or
more. -/
theorem C15_long_name_layout (val : Nat) (name : String) (description : Option String)
    (hex : Bool) (hname : 47 ≤ name.length) :
    p_num_val_indent name = 1 ∧
    p_num_val_numlen val name hex = (8 + (conv hex val).length) - (name.length - 47) ∧
    (p_num_val val name description hex).render =
      name ++ ":" ++ " "
        ++ (spaces ((8 + (conv hex val).length) - (name.length - 47) - (conv hex val).length)
            ++ conv hex val)
        ++ description_text description ++ "\n" ∧
    (55 ≤ name.length →
      (p_num_val val name description hex).render =
        name ++ ":" ++ " " ++ conv hex val ++ description_text description ++ "\n") := by
  have hn : p_num_val_numlen val name hex = (8 + (conv hex val).length) - (name.length - 47) := by
    rw [numlen_long val name hex hname]; omega
  have hr : (p_num_val val name description hex).render =
      name ++ ":" ++ " "
        ++ (spaces ((8 + (conv hex val).length) - (name.length - 47) - (conv hex val).length)
            ++ conv hex val)
        ++ description_text description ++ "\n" := by
    show p_num_val_text val name description hex = _
    unfold p_num_val_text
    rw [indent_long name hname, hn]
    rfl
  refine ⟨indent_long name hname, hn, hr, ?_⟩
  intro hfar
  rw [hr]
  have h0 : (8 + (conv hex val).length) - (name.length - 47) - (conv hex val).length = 0 := by
    omega
  rw [h0]
  have he : spaces 0 = "" := rfl
  rw [he, String.empty_append]

/-- Instance of C15 for the 64-character name of `sfdp_basic`: one blank, then
the value. -/
theorem C15_long_name_layout_witness :
    p_num_val_indent longest_name = 1 ∧
    p_num_val_numlen 0 longest_name false = 0 ∧
    (p_num_val 0 longest_name (some "50h") false).render =
      "Write Enable Instruction for Writing to Volatile Status Register: 0 (50h)\n" :=
  have h := C15_long_name_layout 0 longest_name (some "50h") false (by decide)
  ⟨h.1, h.2.1.trans rfl, (h.2.2.2 (by decide)).trans rfl⟩

/-- C18, counterexample. Under the 51-character name of the first line of word 9
the value 2 is printed in a field of width 5 and the value 32 in a field of
width 6. -/
theorem C18_width_depends_on_value :
    long_name.length = 51 ∧
    p_num_val_numlen 2 long_name false = 5 ∧
    p_num_val_numlen 32 long_name false = 6 ∧
    p_num_val_numlen 2 long_name false ≠ p_num_val_numlen 32 long_name false ∧
    (p_dec_val 2 long_name none).render =
      "Typical Erase Time to Maximum Erase Time Multiplier:     2\n" ∧
    (p_dec_val 32 long_name none).render =
      "Typical Erase Time to Maximum Erase Time Multiplier:     32\n" := by
  refine ⟨rfl, rfl, rfl, by decide, rfl, rfl⟩

/-- C18, amended. The width of the numeric field is 10 for every value when the
name has at most 46 characters. For a name of 47 characters or more it is
`55 + L - len(name)`, at least 0, `L` being the number of characters of the
converted value: it depends on the value through `L` only, so two values
whose conversions have the same length are printed in fields of the same
width. In both cases the value is right-aligned in that field. -/
theorem C18_width_formula (name : String) (hex : Bool) (v v' : Nat) :
    (name.length ≤ 46 →
      p_num_val_numlen v name hex = 10 ∧ p_num_val_numlen v' name hex = 10) ∧
    (47 ≤ name.length →
      p_num_val_numlen v name hex = 55 + (conv hex v).length - name.length) ∧
    ((conv hex v).length = (conv hex v').length →
      p_num_val_numlen v name hex = p_num_val_numlen v' name hex) ∧
    (p_num_val v name none hex).render =
      name ++ ":" ++ spaces (p_num_val_indent name)
        ++ (spaces (p_num_val_numlen v name hex - (conv hex v).length) ++ conv hex v)
        ++ "" ++ "\n" := by
  refine ⟨fun h => ⟨numlen_short v name hex h, numlen_short v' name hex h⟩,
    fun h => numlen_long v name hex h, fun hL => ?_, rfl⟩
  by_cases h : name.length ≤ 46
  · rw [numlen_short v name hex h, numlen_short v' name hex h]
  · rw [numlen_long v name hex (by omega), numlen_long v' name hex (by omega), hL]

/-! ## Multiplier tables -/

/-- C16, the code evaluated. In word 9 the lookup of the first erase-time group
is `erase_time_mult[bits[8:4]]`, a 5-bit index into a table of 4 entries: for
word 9 `0x00000040` the index is 4, and the line shows the word found behind
the table. The other seven lookups of words 9 and 10 use a 2-bit index into a
table of 4 entries or a 1-bit index into a table of 2 entries, and stay
inside their table for every word. -/
theorem C16_erase_time_index_past_table :
    bits 0x00000040 8 4 = 4 ∧
    ¬ bits 0x00000040 8 4 < [1, 16, 128, 1000].length ∧
    (∀ P : Platform, erase_time_mult P (bits 0x00000040 8 4) = P.erase_time_mult_past 4 % 2 ^ 32) ∧
    (∀ P : Platform, (sfdp_basic P [0, 0, 0, 0, 0, 0, 0, 0, 0, 0x00000040] 10).1[41]? =
      some (p_dec_val (P.erase_time_mult_past 4 % 2 ^ 32 * 1 % 2 ^ 32)
        "Erase Type 1 Typical Time" (some "in milliseconds"))) ∧
    (∀ x : Nat,
      bits x 17 16 < [1, 16, 128, 1000].length ∧
      bits x 24 23 < [1, 16, 128, 1000].length ∧
      bits x 31 30 < [1, 16, 128, 1000].length ∧
      bits x 13 13 < [8, 64].length ∧
      bits x 18 18 < [1, 8].length ∧
      bits x 23 23 < [1, 8].length ∧
      bits x 30 29 < [16, 256, 4000, 64000].length) := by
  refine ⟨rfl, by decide, fun P => rfl, fun P => rfl, fun x => ⟨?_, ?_, ?_, ?_, ?_, ?_, ?_⟩⟩
  · exact bits_lt x 17 16 (by norm_num) (by norm_num)
  · exact bits_lt x 24 23 (by norm_num) (by norm_num)
  · exact bits_lt x 31 30 (by norm_num) (by norm_num)
  · exact bits_lt x 13 13 (by norm_num) (by norm_num)
  · exact bits_lt x 18 18 (by norm_num) (by norm_num)
  · exact bits_lt x 23 23 (by norm_num) (by norm_num)
  · exact bits_lt x 30 29 (by norm_num) (by norm_num)

/-! ## Words read by the handlers -/

theorem basic_groups_congr (P : Platform) (w w' : List Nat) (k : Nat)
    (h : rd w k = rd w' k) : (basic_groups P w)[k]? = (basic_groups P w')[k]? := by
  rcases k with _|_|_|_|_|_|_|_|_|_|_|k
  · show some (basic_word0 w) = some (basic_word0 w')
    unfold basic_word0; rw [h]
  · show some (basic_word1 P w) = some (basic_word1 P w')
    unfold basic_word1; rw [h]
  · show some (basic_word2 w) = some (basic_word2 w')
    unfold basic_word2; rw [h]
  · show some (basic_word3 w) = some (basic_word3 w')
    unfold basic_word3; rw [h]
  · show some (basic_word4 w) = some (basic_word4 w')
    unfold basic_word4; rw [h]
  · show some (basic_word5 w) = some (basic_word5 w')
    unfold basic_word5; rw [h]
  · show some (basic_word6 w) = some (basic_word6 w')
    unfold basic_word6; rw [h]
  · show some (basic_word7 P w) = some (basic_word7 P w')
    unfold basic_word7; rw [h]
  · show some (basic_word8 P w) = some (basic_word8 P w')
    unfold basic_word8; rw [h]
  · show some (basic_word9 P w) = some (basic_word9 P w')
    unfold basic_word9; rw [h]
  · show some (basic_word10 P w) = some (basic_word10 P w')
    unfold basic_word10; rw [h]
  · rfl

theorem sfdp_basic_congr (P : Platform) (w w' : List Nat) (n : Nat)
    (h : ∀ j, j < min n 11 → rd w j = rd w' j) : sfdp_basic P w n = sfdp_basic P w' n := by
  rw [sfdp_basic_eq, sfdp_basic_eq]
  congr 2
  apply List.ext_getElem?
  intro k
  rw [List.getElem?_take, List.getElem?_take]
  by_cases hk : k < n
  · rw [if_pos hk, if_pos hk]
    by_cases hk11 : k < 11
    · exact basic_groups_congr P w w' k (h k (by omega))
    · obtain ⟨j, rfl⟩ : ∃ j, k = j + 11 := ⟨k - 11, by omega⟩
      rfl
  · rw [if_neg hk, if_neg hk]

theorem sfdp_unknown_parameter_congr (w w' : List Nat) (n : Nat)
    (h : ∀ j, j < n → rd w j = rd w' j) :
    sfdp_unknown_parameter w n = sfdp_unknown_parameter w' n := by
  unfold sfdp_unknown_parameter
  congr 1
  apply List.map_congr_left
  intro j hj
  rw [h j (List.mem_range.mp hj)]

theorem rd_drop (buf : List Nat) (a k : Nat) : rd (buf.drop a) k = rd buf (a + k) := by
  unfold rd
  rw [List.getD_eq_getElem?_getD, List.getD_eq_getElem?_getD, List.getElem?_drop]

theorem normalise_length (buf : List Nat) (sz : Nat) : (normalise buf sz).length = buf.length := by
  unfold normalise
  split
  · exact swap_words_length _ _
  · rfl

theorem parsed_length (input : List Nat) : (parsed input).length = (nread input + 3) / 4 := by
  unfold parsed nread fread
  rw [normalise_length, pack_words_length, List.length_take, Nat.min_comm]

theorem nread_le (input : List Nat) : nread input ≤ 16384 := by
  rw [nread_eq]; exact Nat.min_le_right _ _

/-- C17. When the walker invokes a handler for entry `i` (`off` a multiple of 4
and `off + 4 * len ≤ sz`), the word of index `k < len` of the slice is word
`off / 4 + k` of the buffer; it lies within the first `sz` bytes read, hence
within the words loaded and within the 4096 words of the buffer. The output of
the unknown handler depends on the words of index below `len` only, that of
the Basic-table handler on the words of index below `min len 11` only. -/
theorem C17_reads_within_input (input : List Nat) (i k : Nat)
    (hal : param_off (parsed input) i % 4 = 0)
    (hin : param_off (parsed input) i + 4 * param_len (parsed input) i ≤ nread input)
    (hk : k < param_len (parsed input) i) :
    4 * (param_off (parsed input) i / 4 + k) + 4 ≤ nread input ∧
    param_off (parsed input) i / 4 + k < (parsed input).length ∧
    (parsed input).length ≤ 4096 ∧
    rd ((parsed input).drop (param_off (parsed input) i / 4)) k =
      rd (parsed input) (param_off (parsed input) i / 4 + k) ∧
    (∀ w w' : List Nat, (∀ j, j < param_len (parsed input) i → rd w j = rd w' j) →
      sfdp_unknown_parameter w (param_len (parsed input) i) =
        sfdp_unknown_parameter w' (param_len (parsed input) i)) ∧
    (∀ (P : Platform) (w w' : List Nat),
      (∀ j, j < min (param_len (parsed input) i) 11 → rd w j = rd w' j) →
      sfdp_basic P w (param_len (parsed input) i) =
        sfdp_basic P w' (param_len (parsed input) i)) := by
  have hsz := nread_le input
  have hlen := parsed_length input
  refine ⟨by omega, by omega, by omega, rd_drop _ _ _,
    fun w w' h => sfdp_unknown_parameter_congr w w' _ h,
    fun P w w' h => sfdp_basic_congr P w w' _ h⟩

/-- Instance of C17 for the entry of `minimal_dump` and its word 0. -/
theorem C17_reads_within_input_witness :
    4 * (param_off (parsed minimal_dump) 0 / 4 + 0) + 4 ≤ nread minimal_dump ∧
    param_off (parsed minimal_dump) 0 / 4 + 0 < (parsed minimal_dump).length ∧
    (parsed minimal_dump).length ≤ 4096 ∧
    rd ((parsed minimal_dump).drop (param_off (parsed minimal_dump) 0 / 4)) 0 =
      rd (parsed minimal_dump) (param_off (parsed minimal_dump) 0 / 4 + 0) ∧
    (∀ w w' : List Nat, (∀ j, j < param_len (parsed minimal_dump) 0 → rd w j = rd w' j) →
      sfdp_unknown_parameter w (param_len (parsed minimal_dump) 0) =
        sfdp_unknown_parameter w' (param_len (parsed minimal_dump) 0)) ∧
    (∀ (P : Platform) (w w' : List Nat),
      (∀ j, j < min (param_len (parsed minimal_dump) 0) 11 → rd w j = rd w' j) →
      sfdp_basic P w (param_len (parsed minimal_dump) 0) =
        sfdp_basic P w' (param_len (parsed minimal_dump) 0)) :=
  C17_reads_within_input minimal_dump 0 0 (by decide) (by decide) (by decide)

end Sfdp

namespace Boot

/-! ## Boot-area programming -/

/-- C19, the code evaluated. The condition of the wait loop at source line 74 is
0 for every value of `FLASH->CTLR`, so the loop never spins; for the value
`0x00010000`, which lacks the boot-area unlock bit, `CTLR & 0x20010000`
differs from `0x20010000`. -/
theorem C19_sanity_wait_never_spins :
    (∀ ctlr : Nat, sanity_wait_cond ctlr = 0) ∧
    sanity_wait_cond 0x00010000 = 0 ∧
    (0x00010000 : Nat) &&& 0x20010000 ≠ 0x20010000 := by
  refine ⟨fun ctlr => ?_, rfl, by decide⟩
  unfold sanity_wait_cond
  simp

theorem loop_calls (fuel : Nat) : ∀ left offset : Nat,
    (left + 255) / 256 ≤ fuel → offset + left < 2 ^ 32 →
    flash_boot_prog_loop fuel left offset =
      some ((List.range ((left + 255) / 256)).map
        (fun k => ((start_addr + offset + 256 * k) % 2 ^ 32, min 256 (left - 256 * k)))) := by
  induction fuel with
  | zero =>
    intro left offset hf _
    have h0 : left = 0 := by omega
    subst h0
    rfl
  | succ fuel ih =>
    intro left offset hf hfit
    unfold flash_boot_prog_loop
    by_cases hl : left > 0
    · rw [if_pos hl]
      by_cases hsmall : 0x100 > left
      · have hcount : (left + 255) / 256 = 1 := by omega
        have hnext := ih 0 ((offset + left) % 2 ^ 32) (by omega) (by omega)
        have hz : (left + 2 ^ 32 - left) % 2 ^ 32 = 0 := by omega
        simp only [if_pos hsmall, hz, hnext, hcount]
        have hr1 : List.range 1 = [0] := rfl
        have hr0 : List.range ((0 + 255) / 256) = [] := rfl
        rw [hr1, hr0]
        simp only [List.map_cons, List.map_nil, Nat.mul_zero, Nat.add_zero, Nat.sub_zero,
          Nat.min_eq_right (le_of_lt hsmall)]
      · have hleft : (left + 2 ^ 32 - 0x100) % 2 ^ 32 = left - 256 := by omega
        have hoff : (offset + 0x100) % 2 ^ 32 = offset + 256 := by
          apply Nat.mod_eq_of_lt; omega
        have hcount : (left + 255) / 256 = (left - 256 + 255) / 256 + 1 := by omega
        have hnext := ih (left - 256) (offset + 256) (by omega) (by omega)
        simp only [if_neg hsmall, hleft, hoff, hnext, hcount]
        rw [List.range_succ_eq_map, List.map_cons, List.map_map]
        have hadd0 : start_addr + offset + 256 * 0 = start_addr + offset := by omega
        have hmin : min 256 (left - 256 * 0) = 0x100 := by omega
        have hmap : List.map ((fun k => ((start_addr + offset + 256 * k) % 2 ^ 32,
                min 256 (left - 256 * k))) ∘ Nat.succ)
              (List.range ((left - 256 + 255) / 256)) =
            List.map (fun k => ((start_addr + (offset + 256) + 256 * k) % 2 ^ 32,
              min 256 (left - 256 - 256 * k))) (List.range ((left - 256 + 255) / 256)) := by
          apply List.map_congr_left
          intro k _
          simp only [Function.comp, Nat.succ_eq_add_one]
          have e1 : start_addr + offset + 256 * (k + 1) =
              start_addr + (offset + 256) + 256 * k := by omega
          have e2 : left - 256 * (k + 1) = left - 256 - 256 * k := by omega
          rw [e1, e2]
        rw [hmap, hmin, hadd0]
    · have h0 : left = 0 := by omega
      subst h0
      rfl

theorem chunk_sum (m : Nat) : ∀ n : Nat, (n + 255) / 256 = m →
    ((List.range m).map (fun k => min 256 (n - 256 * k))).sum = n := by
  induction m with
  | zero => intro n h; simp; omega
  | succ m ih =>
    intro n h
    rw [List.range_succ_eq_map, List.map_cons, List.map_map, List.sum_cons]
    have hmap : List.map ((fun k => min 256 (n - 256 * k)) ∘ Nat.succ) (List.range m) =
        List.map (fun k => min 256 (n - 256 - 256 * k)) (List.range m) := by
      apply List.map_congr_left
      intro k _
      simp only [Function.comp, Nat.succ_eq_add_one]
      have e2 : n - 256 * (k + 1) = n - 256 - 256 * k := by omega
      rw [e2]
    rw [hmap, ih (n - 256) (by omega)]
    omega

/-- C20. For an image of `n` bytes, `n` a `uint32_t`, `flash_boot_prog`
terminates: every bound of at least `ceil(n/256)` iterations (`n` itself is
one) suffices. It calls `flash_boot_program256` on the chunks
`(0x1fff8000 + 256 * k, size_k)` for `k = 0, ..., ceil(n/256) - 1` in this
order, `size_k = min 256 (n - 256 * k)`, the address being taken modulo `2^32`,
which changes nothing when the image ends within the 32-bit address space.
Every size is between 1 and 256, all but the last are 256, chunk `k` covers the
bytes from `256 * k` on within the image, and the sizes sum to `n`. -/
theorem C20_image_chunks (n fuel : Nat) (hn : n < 2 ^ 32) (hfuel : (n + 255) / 256 ≤ fuel) :
    flash_boot_prog fuel n =
      some ((List.range ((n + 255) / 256)).map
        (fun k => ((0x1fff8000 + 256 * k) % 2 ^ 32, min 256 (n - 256 * k)))) ∧
    (0x1fff8000 + n ≤ 2 ^ 32 →
      flash_boot_prog fuel n =
        some ((List.range ((n + 255) / 256)).map
          (fun k => (0x1fff8000 + 256 * k, min 256 (n - 256 * k))))) ∧
    flash_boot_prog n n = flash_boot_prog fuel n ∧
    (∀ k, k < (n + 255) / 256 →
      1 ≤ min 256 (n - 256 * k) ∧ min 256 (n - 256 * k) ≤ 256 ∧
      (k + 1 < (n + 255) / 256 → min 256 (n - 256 * k) = 256) ∧
      256 * k + min 256 (n - 256 * k) ≤ n) ∧
    ((List.range ((n + 255) / 256)).map (fun k => min 256 (n - 256 * k))).sum = n := by
  have hmod : n % 2 ^ 32 = n := Nat.mod_eq_of_lt hn
  have hrun : ∀ f, (n + 255) / 256 ≤ f → flash_boot_prog f n =
      some ((List.range ((n + 255) / 256)).map
        (fun k => ((0x1fff8000 + 256 * k) % 2 ^ 32, min 256 (n - 256 * k)))) := by
    intro f hf
    unfold flash_boot_prog
    rw [hmod, loop_calls f n 0 hf (by omega)]
    rfl
  refine ⟨hrun fuel hfuel, fun hfit => ?_, ?_, ?_, chunk_sum _ n rfl⟩
  · rw [hrun fuel hfuel]
    congr 1
    apply List.map_congr_left
    intro k hk
    have hk' := List.mem_range.mp hk
    have hlt : 0x1fff8000 + 256 * k < 2 ^ 32 := by omega
    rw [Nat.mod_eq_of_lt hlt]
  · rw [hrun fuel hfuel, hrun n (by omega)]
  · intro k hk
    refine ⟨by omega, by omega, fun hk1 => by omega, by omega⟩

/-- Instance of C20 for an image of 600 bytes. -/
theorem C20_image_chunks_witness :
    flash_boot_prog 3 600 = some [(0x1fff8000, 256), (0x1fff8100, 256), (0x1fff8200, 88)] ∧
    flash_boot_prog 600 600 = flash_boot_prog 3 600 :=
  have h := C20_image_chunks 600 3 (by decide) (by decide)
  ⟨h.1.trans rfl, h.2.2.1⟩

end Boot
